import Mathlib

/-!
Verification of the WorkSync synchronization and persistence flow.

The client layer (App.tsx) is embedded as pure functions from a client
state to a new client state together with the list of REST calls issued;
the server layer (server.js + database.js) is embedded as pure functions
on a relational store whose tables are lists of row records, with SQLite
INSERT OR REPLACE modelled as filter-out-by-primary-key followed by
append, and JSON text columns modelled by an executable serializer and
parser for the concrete record shapes the application stores.
-/

namespace WorkSync

/-- Subtask of a standalone Task (types.ts). -/
structure Subtask where
  id : String
  content : String
  isCompleted : Bool
deriving DecidableEq, Repr

/-- Child task of an InternalProject (types.ts). -/
structure ProjectTask where
  id : String
  content : String
  isCompleted : Bool
deriving DecidableEq, Repr

/-- Research note of an InternalProject (types.ts). -/
structure ResearchNote where
  id : String
  date : String
  content : String
  createdAt : String
deriving DecidableEq, Repr

/-- Standalone Task as held in client state (types.ts); optional fields of
the TypeScript interface are Options. -/
structure Task where
  id : String
  content : String
  isCompleted : Bool
  type : String
  date : String
  createdAt : String
  isPriority : Bool
  subtasks : List Subtask
  engagementId : Option String
  engagementName : Option String
  projectId : Option String
  projectName : Option String
deriving DecidableEq, Repr

/-- InternalProject aggregate as held in client state (types.ts), including
the optional source-tracking fields read by the server on save. -/
structure InternalProject where
  id : String
  name : String
  description : String
  status : String
  startDate : String
  dueDate : String
  createdAt : String
  tasks : List ProjectTask
  researchNotes : List ResearchNote
  sourceIdeaId : Option String
  sourceIdeaTitle : Option String
  sourceEngagementId : Option String
  sourceEngagementName : Option String
deriving DecidableEq, Repr

/-- A REST call issued by a client handler: saveTaskAPI posts to the task
upsert endpoint, deleteTaskAPI to the task delete endpoint, saveProjectAPI
to the project upsert endpoint (apiService.ts). -/
inductive ApiCall where
  | saveTask (t : Task)
  | deleteTask (id : String)
  | saveProject (p : InternalProject)
deriving DecidableEq, Repr

/-- The slice of client state relevant to the Task/ProjectTask duality:
the standalone task collection and the project collection (App.tsx). -/
structure ClientState where
  tasks : List Task
  projects : List InternalProject
deriving DecidableEq, Repr

/-- The per-project update performed by handleUpdateTask on the owning
project: the matching ProjectTask receives the new isCompleted and content,
all other child tasks are kept (App.tsx, inner map). -/
def applyTaskUpdate (t : Task) (p : InternalProject) : InternalProject :=
  { p with tasks := p.tasks.map fun pt =>
      if pt.id == t.id then { pt with isCompleted := t.isCompleted, content := t.content } else pt }

/-- JS truthiness of an optional string: undefined, null and the empty
string are falsy. -/
def jsTruthy (o : Option String) : Bool :=
  match o with
  | some s => s != ""
  | none => false

/-- handleUpdateTask (App.tsx): the dispatch is the JS truthy check
if (updatedTask.projectId), so an absent or empty-string projectId takes
the standalone branch. On a truthy projectId the task is mapped onto the
owning project and the whole project is saved through saveProjectAPI; the
JS local variable targetProject holds the last updated project whose id
matches, modelled by getLast? of the matching updated projects. Otherwise
the standalone entry is replaced and saved through saveTaskAPI. -/
def handleUpdateTask (s : ClientState) (t : Task) : ClientState × List ApiCall :=
  if jsTruthy t.projectId then
    let pid := t.projectId.getD ""
    let newProjects := s.projects.map fun p => if p.id == pid then applyTaskUpdate t p else p
    let target := (newProjects.filter fun p => p.id == pid).getLast?
    ({ s with projects := newProjects },
      match target with
      | some p => [ApiCall.saveProject p]
      | none => [])
  else
    ({ s with tasks := s.tasks.map fun x => if x.id == t.id then t else x },
      [ApiCall.saveTask t])

/-- Removal of a child task from a project, as performed by handleDeleteTask
on the owning project (App.tsx). -/
def removeProjectTask (taskId : String) (p : InternalProject) : InternalProject :=
  { p with tasks := p.tasks.filter fun pt => pt.id != taskId }

/-- handleDeleteTask (App.tsx): first scans the projects for one whose task
list contains the id; if found, filters that task out of the owning project
and saves the whole project through saveProjectAPI; otherwise filters the
standalone collection and issues deleteTaskAPI. -/
def handleDeleteTask (s : ClientState) (taskId : String) : ClientState × List ApiCall :=
  match s.projects.find? (fun p => p.tasks.any fun pt => pt.id == taskId) with
  | some src =>
    let newProjects := s.projects.map fun p => if p.id == src.id then removeProjectTask taskId p else p
    let target := (newProjects.filter fun p => p.id == src.id).getLast?
    ({ s with projects := newProjects },
      match target with
      | some p => [ApiCall.saveProject p]
      | none => [])
  | none =>
    ({ s with tasks := s.tasks.filter fun x => x.id != taskId }, [ApiCall.deleteTask taskId])

/-- The Task-shaped view of a ProjectTask used by the computed master task
list (App.tsx, masterTasksList): type forced to daily, date forced to
today, projectId and projectName attached; fields absent from the JS
object literal are the JS-falsy defaults. -/
def projectDerivedTask (today : String) (p : InternalProject) (pt : ProjectTask) : Task :=
  { id := pt.id, content := pt.content, isCompleted := pt.isCompleted, type := "daily",
    date := today, createdAt := p.createdAt, isPriority := false, subtasks := [],
    engagementId := none, engagementName := none, projectId := some p.id,
    projectName := some p.name }

/-- masterTasksList (App.tsx): the read-only union of the standalone tasks
and the project-derived task views. -/
def masterTasksList (today : String) (s : ClientState) : List Task :=
  s.tasks ++ s.projects.flatMap fun p => p.tasks.map (projectDerivedTask today p)

section ListHelpers

variable {α β : Type}

/-- Filtering a mapped list by a predicate that the map preserves. -/
theorem filter_map_of_pres (l : List InternalProject) (pid : String)
    (f : InternalProject → InternalProject) (hpres : ∀ p, (f p).id = p.id) :
    ((l.map fun p => if p.id == pid then f p else p).filter fun p => p.id == pid)
      = (l.filter fun p => p.id == pid).map f := by
  induction l with
  | nil => simp
  | cons hd tl ih =>
    by_cases h : hd.id = pid
    · simp only [List.map_cons, List.filter_cons, h]
      simp only [beq_self_eq_true, if_true, hpres hd, h, beq_self_eq_true, ih]
      simp
    · have hb : (hd.id == pid) = false := by simp [h]
      simp only [List.map_cons, List.filter_cons, hb, if_false, ih]
      simp [hb]

/-- In a list of projects with pairwise distinct ids, filtering by the id of
a member yields exactly that member. -/
theorem filter_eq_singleton_of_nodup (l : List InternalProject) (p : InternalProject)
    (hmem : p ∈ l) (hnodup : (l.map (·.id)).Nodup) :
    (l.filter fun q => q.id == p.id) = [p] := by
  induction l with
  | nil => simp at hmem
  | cons hd tl ih =>
    simp only [List.map_cons, List.nodup_cons] at hnodup
    rcases List.mem_cons.mp hmem with h | h
    · subst h
      have : (tl.filter fun q => q.id == p.id) = [] := by
        apply List.filter_eq_nil_iff.mpr
        intro q hq hqe
        rw [beq_iff_eq] at hqe
        exact hnodup.1 (hqe ▸ List.mem_map_of_mem _ hq)
      simp [List.filter_cons, this]
    · have hne : hd.id ≠ p.id := by
        intro he
        have : p.id ∈ tl.map (·.id) := List.mem_map_of_mem _ h
        exact hnodup.1 (by rw [he]; exact this)
      have hb : (hd.id == p.id) = false := by simp [hne]
      simp [List.filter_cons, hb, ih h hnodup.2]

end ListHelpers

/-- Claim C1: for every client state and every task t whose projectId is set
(truthy in the JS sense: present and non-empty, which is what the source's
if (updatedTask.projectId) tests) and matches a project p containing a
ProjectTask with id t.id (project ids pairwise distinct), handleUpdateTask t
leaves the standalone task collection unchanged, updates only the owning
project (matching ProjectTask receives the new content and isCompleted,
every other project and every other child task unchanged), and issues
exactly one REST call: the entire updated project through the project
upsert endpoint, never the task endpoint. -/
theorem C1_project_task_update (s : ClientState) (t : Task) (pid : String)
    (p : InternalProject)
    (hpid : t.projectId = some pid)
    (hpne : pid ≠ "")
    (hmem : p ∈ s.projects) (hp : p.id = pid)
    (hpt : ∃ pt ∈ p.tasks, pt.id = t.id)
    (hnodup : (s.projects.map (·.id)).Nodup) :
    (handleUpdateTask s t).1.tasks = s.tasks ∧
    (handleUpdateTask s t).1.projects
      = s.projects.map (fun q => if q.id == pid then applyTaskUpdate t q else q) ∧
    (∀ q ∈ s.projects, q.id ≠ pid → q ∈ (handleUpdateTask s t).1.projects) ∧
    (∀ pt ∈ p.tasks, pt.id = t.id →
      ({ id := pt.id, content := t.content, isCompleted := t.isCompleted } : ProjectTask)
        ∈ (applyTaskUpdate t p).tasks) ∧
    (∀ pt ∈ p.tasks, pt.id ≠ t.id → pt ∈ (applyTaskUpdate t p).tasks) ∧
    (handleUpdateTask s t).2 = [ApiCall.saveProject (applyTaskUpdate t p)] := by
  have hidpres : ∀ q, (applyTaskUpdate t q).id = q.id := fun q => rfl
  have hfil : ((s.projects.map fun q => if q.id == pid then applyTaskUpdate t q else q).filter
      fun q => q.id == pid) = [applyTaskUpdate t p] := by
    rw [filter_map_of_pres _ _ _ hidpres, ← hp,
      filter_eq_singleton_of_nodup s.projects p hmem hnodup]
    simp
  have htruthy : jsTruthy t.projectId = true := by
    rw [hpid]
    simp [jsTruthy, hpne]
  have hget : t.projectId.getD "" = pid := by
    rw [hpid]
    rfl
  simp only [handleUpdateTask, htruthy, hget, if_true, hfil]
  refine ⟨by trivial, by trivial, ?_, ?_, ?_, by simp [List.getLast?]⟩
  · intro q hq hqne
    exact List.mem_map.mpr ⟨q, hq, by simp [hqne]⟩
  · intro pt hptm hpte
    exact List.mem_map.mpr ⟨pt, hptm, by simp [hpte]⟩
  · intro pt hptm hpte
    exact List.mem_map.mpr ⟨pt, hptm, by simp [hpte]⟩

/-- Concrete witness data for the client-side claims. -/
def wTask1 : Task :=
  { id := "pt-1", content := "new content", isCompleted := true, type := "daily",
    date := "2024-01-01", createdAt := "c0", isPriority := false, subtasks := [],
    engagementId := none, engagementName := none, projectId := some "p-1",
    projectName := some "Cert" }

def wProject1 : InternalProject :=
  { id := "p-1", name := "Cert", description := "study", status := "In Progress",
    startDate := "2024-01-01", dueDate := "2024-02-01", createdAt := "c0",
    tasks := [{ id := "pt-1", content := "old content", isCompleted := false },
              { id := "pt-2", content := "other", isCompleted := true }],
    researchNotes := [], sourceIdeaId := none, sourceIdeaTitle := none,
    sourceEngagementId := none, sourceEngagementName := none }

def wTask9 : Task :=
  { id := "task-9", content := "standalone", isCompleted := false, type := "daily",
    date := "2024-01-01", createdAt := "c0", isPriority := true, subtasks := [],
    engagementId := none, engagementName := none, projectId := none, projectName := none }

def wState1 : ClientState :=
  { tasks := [wTask9], projects := [wProject1] }

theorem C1_project_task_update_witness :
    (handleUpdateTask wState1 wTask1).2 = [ApiCall.saveProject (applyTaskUpdate wTask1 wProject1)] :=
  (C1_project_task_update wState1 wTask1 "p-1" wProject1 rfl (by decide) (by decide) rfl
    (by decide) (by decide)).2.2.2.2.2

/-- Claim C4: handleDeleteTask first checks whether any project contains a
ProjectTask with the given id (project ids pairwise distinct); if the scan
finds an owning project, that child task is removed from its task list, the
standalone collection is untouched, and the single REST call issued is the
whole updated project through the project upsert endpoint (no task-delete
request); otherwise the standalone task is removed from local state and a
direct task delete request is issued. -/
theorem C4_delete_task_dispatch (s : ClientState) (taskId : String)
    (hnodup : (s.projects.map (·.id)).Nodup) :
    (∀ src, s.projects.find? (fun p => p.tasks.any fun pt => pt.id == taskId) = some src →
      (handleDeleteTask s taskId).1.tasks = s.tasks ∧
      (handleDeleteTask s taskId).1.projects
        = s.projects.map (fun q => if q.id == src.id then removeProjectTask taskId q else q) ∧
      (∀ q ∈ s.projects, q.id ≠ src.id → q ∈ (handleDeleteTask s taskId).1.projects) ∧
      (∀ pt ∈ src.tasks, pt.id ≠ taskId → pt ∈ (removeProjectTask taskId src).tasks) ∧
      (∀ pt ∈ (removeProjectTask taskId src).tasks, pt.id ≠ taskId) ∧
      (handleDeleteTask s taskId).2 = [ApiCall.saveProject (removeProjectTask taskId src)]) ∧
    ((s.projects.find? (fun p => p.tasks.any fun pt => pt.id == taskId) = none) →
      (handleDeleteTask s taskId).1.projects = s.projects ∧
      (handleDeleteTask s taskId).1.tasks = s.tasks.filter (fun x => x.id != taskId) ∧
      (∀ x ∈ s.tasks, x.id ≠ taskId → x ∈ (handleDeleteTask s taskId).1.tasks) ∧
      (handleDeleteTask s taskId).2 = [ApiCall.deleteTask taskId]) := by
  constructor
  · intro src hfind
    have hsrcmem : src ∈ s.projects := List.mem_of_find?_eq_some hfind
    have hidpres : ∀ q, (removeProjectTask taskId q).id = q.id := fun q => rfl
    have hfil : ((s.projects.map fun q =>
        if q.id == src.id then removeProjectTask taskId q else q).filter
          fun q => q.id == src.id) = [removeProjectTask taskId src] := by
      rw [filter_map_of_pres _ _ _ hidpres,
        filter_eq_singleton_of_nodup s.projects src hsrcmem hnodup]
      simp
    simp only [handleDeleteTask, hfind, hfil]
    refine ⟨by trivial, by trivial, ?_, ?_, ?_, by simp [List.getLast?]⟩
    · intro q hq hqne
      exact List.mem_map.mpr ⟨q, hq, by simp [hqne]⟩
    · intro pt hptm hpte
      simp only [removeProjectTask, List.mem_filter]
      exact ⟨hptm, by simp [hpte]⟩
    · intro pt hptm
      simp only [removeProjectTask, List.mem_filter] at hptm
      simpa using hptm.2
  · intro hfind
    simp only [handleDeleteTask, hfind]
    refine ⟨by trivial, by trivial, ?_, by trivial⟩
    intro x hx hxne
    exact List.mem_filter.mpr ⟨hx, by simp [hxne]⟩

theorem C4_delete_task_dispatch_witness :
    (handleDeleteTask wState1 "pt-2").2
      = [ApiCall.saveProject (removeProjectTask "pt-2" wProject1)] :=
  ((C4_delete_task_dispatch wState1 "pt-2" (by decide)).1 wProject1 (by decide)).2.2.2.2.2

/-! ### Server-side relational store (database.js schema) -/

/-- users table row (database.js). -/
structure UserRow where
  id : String
  email : String
  passwordHash : String
  name : String
  createdAt : String
deriving DecidableEq, Repr

/-- engagements table row; the timeline and files columns hold serialized
JSON text (database.js). -/
structure EngagementRow where
  id : String
  userId : Option String
  engagementNumber : String
  orgId : String
  accountName : String
  name : String
  status : String
  timeline : String
  files : String
  aiSummary : Option String
  lastSummaryDate : Option String
deriving DecidableEq, Repr

/-- tasks table row; the 0/1 flags are stored as integers and subtasks as
serialized JSON text (database.js). -/
structure TaskRow where
  id : String
  userId : Option String
  content : String
  isCompleted : Nat
  type : String
  date : String
  createdAt : String
  isPriority : Nat
  engagementId : Option String
  projectId : Option String
  subtasks : String
deriving DecidableEq, Repr

/-- projects table row, including the migrated source-tracking columns
(database.js). -/
structure ProjectRow where
  id : String
  userId : Option String
  name : String
  description : String
  status : String
  startDate : String
  dueDate : String
  createdAt : String
  sourceIdeaId : Option String
  sourceIdeaTitle : Option String
  sourceEngagementId : Option String
  sourceEngagementName : Option String
deriving DecidableEq, Repr

/-- project_tasks child table row (database.js). -/
structure ProjectTaskRow where
  id : String
  projectId : String
  content : String
  isCompleted : Nat
deriving DecidableEq, Repr

/-- research_notes child table row (database.js). -/
structure ResearchNoteRow where
  id : String
  projectId : String
  content : String
  date : String
  createdAt : String
deriving DecidableEq, Repr

/-- highlights table row (database.js). -/
structure HighlightRow where
  id : String
  userId : Option String
  content : String
  impact : String
  date : String
  needsFollowUp : Nat
  followUpContext : Option String
  createdAt : String
deriving DecidableEq, Repr

/-- ideas table row including the migrated columns (database.js). -/
structure IdeaRow where
  id : String
  userId : Option String
  title : String
  description : String
  entries : String
  category : String
  priority : String
  status : String
  createdAt : String
  updatedAt : Option String
  aiSummary : Option String
  lastSummaryDate : Option String
  engagementId : Option String
  engagementName : Option String
  convertedToProjectId : Option String
deriving DecidableEq, Repr

/-- calendar_events table row (database.js). -/
structure CalendarEventRow where
  id : String
  userId : Option String
  title : String
  description : Option String
  date : String
  startTime : String
  endTime : String
  type : String
  meetingNotes : Option String
  momSent : Nat
deriving DecidableEq, Repr

/-- useful_links table row (database.js). -/
structure UsefulLinkRow where
  id : String
  userId : Option String
  title : String
  url : String
  category : String
  description : Option String
  createdAt : String
deriving DecidableEq, Repr

/-- notes table row; the tags column holds serialized JSON text
(database.js). -/
structure NoteRow where
  id : String
  userId : Option String
  title : String
  content : String
  tags : String
  createdAt : String
  updatedAt : Option String
deriving DecidableEq, Repr

/-- settings key-value table row with the migrated userId column
(server.js / database.js). -/
structure SettingRow where
  key : String
  value : String
  userId : Option String
deriving DecidableEq, Repr

/-- The relational store: one list per table, in SELECT * (rowid) order. -/
structure Store where
  users : List UserRow
  engagements : List EngagementRow
  tasks : List TaskRow
  projects : List ProjectRow
  project_tasks : List ProjectTaskRow
  research_notes : List ResearchNoteRow
  highlights : List HighlightRow
  ideas : List IdeaRow
  calendar_events : List CalendarEventRow
  useful_links : List UsefulLinkRow
  notes : List NoteRow
  settings : List SettingRow
deriving DecidableEq, Repr

/-- JS conditional b ? 1 : 0, the boolean encoding used on every INSERT. -/
def boolToInt (b : Bool) : Nat := if b then 1 else 0

/-- JS double negation !!n applied to a stored 0/1 column on read. -/
def truthyInt (n : Nat) : Bool := n != 0

/-- JS a || b for an optional string a: undefined, null and the empty
string all fall through to the default. -/
def jsOr (o : Option String) (d : String) : String :=
  match o with
  | some s => if s = "" then d else s
  | none => d

/-- JS a || null for an optional string: undefined, null and the empty
string all become null. -/
def jsOrNull (o : Option String) : Option String :=
  match o with
  | some s => if s = "" then none else some s
  | none => none

/-- JS now.slice(0, 10): the date part of an ISO timestamp string. -/
def dateSlice (s : String) : String := String.mk (s.data.take 10)

theorem truthyInt_boolToInt (b : Bool) : truthyInt (boolToInt b) = b := by
  cases b <;> rfl

/-! ### Project aggregate endpoints (server.js) -/

/-- The parent row written by POST /api/projects: every column of the
projects table, userId taken from the authenticated request. -/
def projectRowOf (u : String) (p : InternalProject) : ProjectRow :=
  { id := p.id, userId := some u, name := p.name, description := p.description,
    status := p.status, startDate := p.startDate, dueDate := p.dueDate,
    createdAt := p.createdAt, sourceIdeaId := jsOrNull p.sourceIdeaId,
    sourceIdeaTitle := jsOrNull p.sourceIdeaTitle,
    sourceEngagementId := jsOrNull p.sourceEngagementId,
    sourceEngagementName := jsOrNull p.sourceEngagementName }

/-- A reinserted project_tasks child row (server.js, stmtTask). -/
def projectTaskRowOf (pid : String) (t : ProjectTask) : ProjectTaskRow :=
  { id := t.id, projectId := pid, content := t.content, isCompleted := boolToInt t.isCompleted }

/-- A reinserted research_notes child row (server.js, stmtNote). -/
def researchNoteRowOf (pid : String) (n : ResearchNote) : ResearchNoteRow :=
  { id := n.id, projectId := pid, content := n.content, date := n.date,
    createdAt := n.createdAt }

/-- POST /api/projects (server.js): INSERT OR REPLACE of the parent row, then
deletion of ALL existing child rows for that projectId and wholesale
reinsert of the incoming child arrays. -/
def postProjects (u : String) (p : InternalProject) (s : Store) : Store :=
  { s with
    projects := (s.projects.filter fun r => r.id != p.id) ++ [projectRowOf u p],
    project_tasks := (s.project_tasks.filter fun r => r.projectId != p.id)
      ++ p.tasks.map (projectTaskRowOf p.id),
    research_notes := (s.research_notes.filter fun r => r.projectId != p.id)
      ++ p.researchNotes.map (researchNoteRowOf p.id) }

/-- Wire shape of a project child task returned by GET /api/projects: the row
spread with the isCompleted flag coerced to Bool. -/
structure ProjectTaskOut where
  id : String
  projectId : String
  content : String
  isCompleted : Bool
deriving DecidableEq, Repr

/-- Wire shape of a project returned by GET /api/projects: the parent row
spread plus the assembled child arrays. -/
structure ProjectOut where
  id : String
  userId : Option String
  name : String
  description : String
  status : String
  startDate : String
  dueDate : String
  createdAt : String
  sourceIdeaId : Option String
  sourceIdeaTitle : Option String
  sourceEngagementId : Option String
  sourceEngagementName : Option String
  tasks : List ProjectTaskOut
  researchNotes : List ResearchNoteRow
deriving DecidableEq, Repr

def formatProjectTaskRow (t : ProjectTaskRow) : ProjectTaskOut :=
  { id := t.id, projectId := t.projectId, content := t.content,
    isCompleted := truthyInt t.isCompleted }

/-- Assembly step of GET /api/projects (server.js): children are selected by
matching projectId, and the child flag coerced to Bool. -/
def assembleProject (s : Store) (p : ProjectRow) : ProjectOut :=
  { id := p.id, userId := p.userId, name := p.name, description := p.description,
    status := p.status, startDate := p.startDate, dueDate := p.dueDate,
    createdAt := p.createdAt, sourceIdeaId := p.sourceIdeaId,
    sourceIdeaTitle := p.sourceIdeaTitle, sourceEngagementId := p.sourceEngagementId,
    sourceEngagementName := p.sourceEngagementName,
    tasks := (s.project_tasks.filter fun t => t.projectId == p.id).map formatProjectTaskRow,
    researchNotes := s.research_notes.filter fun n => n.projectId == p.id }

/-- GET /api/projects (server.js): the user-scoped parent rows, each
assembled with its child arrays. -/
def getProjects (u : String) (s : Store) : List ProjectOut :=
  (s.projects.filter fun p => p.userId == some u).map (assembleProject s)

/-- find? skips a leading block on which the predicate is everywhere
false. -/
theorem find?_append_of_none {α : Type} {pr : α → Bool} (l1 l2 : List α)
    (h : ∀ x ∈ l1, pr x = false) : (l1 ++ l2).find? pr = l2.find? pr := by
  induction l1 with
  | nil => simp
  | cons hd tl ih =>
    rw [List.cons_append, List.find?_cons_of_neg _ (by simp [h hd (by simp)]),
      ih fun x hx => h x (by simp [hx])]

/-- Rows kept by a bne-filter on a column all fail the matching beq-filter. -/
theorem filter_beq_after_bne {α : Type} (f : α → String) (v : String) (l : List α) :
    (((l.filter fun r => f r != v)).filter fun r => f r == v) = [] := by
  apply List.filter_eq_nil_iff.mpr
  intro a ha hbeq
  have h2 := (List.mem_filter.mp ha).2
  rw [beq_iff_eq] at hbeq
  simp [hbeq] at h2

/-- Claim C2: after POST /api/projects with body p, a GET /api/projects by the
same user returns project p.id with exactly the submitted child arrays (the
child task flags round-tripping through the 0/1 encoding), and the child
tables hold, under p.id, exactly the reinserted rows: every previously
stored child row of p.id not in the submitted arrays is gone. The Nodup and
disjointness hypotheses keep the append model of the child INSERTs faithful
to the SQLite primary-key constraint. -/
theorem C2_project_save_roundtrip (u : String) (p : InternalProject) (s : Store)
    (htn : (p.tasks.map (·.id)).Nodup)
    (hnn : (p.researchNotes.map (·.id)).Nodup)
    (hdt : ∀ r ∈ s.project_tasks, r.projectId ≠ p.id → ∀ t ∈ p.tasks, t.id ≠ r.id)
    (hdn : ∀ r ∈ s.research_notes, r.projectId ≠ p.id → ∀ n ∈ p.researchNotes, n.id ≠ r.id) :
    ((getProjects u (postProjects u p s)).find? fun q => q.id == p.id)
      = some { id := p.id, userId := some u, name := p.name, description := p.description,
               status := p.status, startDate := p.startDate, dueDate := p.dueDate,
               createdAt := p.createdAt, sourceIdeaId := jsOrNull p.sourceIdeaId,
               sourceIdeaTitle := jsOrNull p.sourceIdeaTitle,
               sourceEngagementId := jsOrNull p.sourceEngagementId,
               sourceEngagementName := jsOrNull p.sourceEngagementName,
               tasks := p.tasks.map fun t =>
                 { id := t.id, projectId := p.id, content := t.content,
                   isCompleted := t.isCompleted },
               researchNotes := p.researchNotes.map (researchNoteRowOf p.id) } ∧
    ((postProjects u p s).project_tasks.filter fun r => r.projectId == p.id)
      = p.tasks.map (projectTaskRowOf p.id) ∧
    ((postProjects u p s).research_notes.filter fun r => r.projectId == p.id)
      = p.researchNotes.map (researchNoteRowOf p.id) := by
  have hct : ((postProjects u p s).project_tasks.filter fun r => r.projectId == p.id)
      = p.tasks.map (projectTaskRowOf p.id) := by
    have hproj : (postProjects u p s).project_tasks
        = (s.project_tasks.filter fun r => r.projectId != p.id)
          ++ p.tasks.map (projectTaskRowOf p.id) := rfl
    rw [hproj, List.filter_append,
      filter_beq_after_bne (fun r : ProjectTaskRow => r.projectId) p.id,
      List.nil_append]
    apply List.filter_eq_self.mpr
    intro r hr
    rcases List.mem_map.mp hr with ⟨t, _, rfl⟩
    simp [projectTaskRowOf]
  have hcn : ((postProjects u p s).research_notes.filter fun r => r.projectId == p.id)
      = p.researchNotes.map (researchNoteRowOf p.id) := by
    have hproj : (postProjects u p s).research_notes
        = (s.research_notes.filter fun r => r.projectId != p.id)
          ++ p.researchNotes.map (researchNoteRowOf p.id) := rfl
    rw [hproj, List.filter_append,
      filter_beq_after_bne (fun r : ResearchNoteRow => r.projectId) p.id,
      List.nil_append]
    apply List.filter_eq_self.mpr
    intro r hr
    rcases List.mem_map.mp hr with ⟨n, _, rfl⟩
    simp [researchNoteRowOf]
  have hasm : assembleProject (postProjects u p s) (projectRowOf u p)
      = { id := p.id, userId := some u, name := p.name, description := p.description,
          status := p.status, startDate := p.startDate, dueDate := p.dueDate,
          createdAt := p.createdAt, sourceIdeaId := jsOrNull p.sourceIdeaId,
          sourceIdeaTitle := jsOrNull p.sourceIdeaTitle,
          sourceEngagementId := jsOrNull p.sourceEngagementId,
          sourceEngagementName := jsOrNull p.sourceEngagementName,
          tasks := p.tasks.map fun t =>
            { id := t.id, projectId := p.id, content := t.content,
              isCompleted := t.isCompleted },
          researchNotes := p.researchNotes.map (researchNoteRowOf p.id) } := by
    have htasks : ((p.tasks.map (projectTaskRowOf p.id)).map formatProjectTaskRow)
        = p.tasks.map fun t =>
            ({ id := t.id, projectId := p.id, content := t.content,
               isCompleted := t.isCompleted } : ProjectTaskOut) := by
      rw [List.map_map]
      congr 1
      funext t
      simp [Function.comp, formatProjectTaskRow, projectTaskRowOf, truthyInt_boolToInt]
    simp only [assembleProject, projectRowOf]
    rw [hct, hcn, htasks]
  refine ⟨?_, hct, hcn⟩
  have hproj : (postProjects u p s).projects
      = (s.projects.filter fun r => r.id != p.id) ++ [projectRowOf u p] := rfl
  have hfail : ∀ x ∈ ((s.projects.filter fun r => r.id != p.id).filter
      fun q => q.userId == some u).map (assembleProject (postProjects u p s)),
      ((fun q => q.id == p.id) x) = false := by
    intro x hx
    rcases List.mem_map.mp hx with ⟨r, hr, rfl⟩
    have hne := (List.mem_filter.mp (List.mem_filter.mp hr).1).2
    simp only [bne_iff_ne, ne_eq] at hne
    simp [assembleProject, hne]
  simp only [getProjects]
  rw [hproj, List.filter_append, List.map_append,
    show ([projectRowOf u p].filter fun q => q.userId == some u) = [projectRowOf u p] by
      simp [projectRowOf],
    find?_append_of_none _ _ hfail]
  simp only [List.map_cons, List.map_nil]
  rw [List.find?_cons_of_pos _ (by simp [assembleProject, projectRowOf]), hasm]

/-- Concrete witness data for the server-side claims. -/
def wStore0 : Store :=
  { users := [], engagements := [], tasks := [], projects := [], project_tasks := [],
    research_notes := [], highlights := [], ideas := [], calendar_events := [],
    useful_links := [], notes := [], settings := [] }

def wOldChildTask : ProjectTaskRow :=
  { id := "pt-stale", projectId := "p-1", content := "stale child", isCompleted := 0 }

def wStore2 : Store := { wStore0 with project_tasks := [wOldChildTask] }

theorem C2_project_save_roundtrip_witness :
    ((postProjects "u-1" wProject1 wStore2).project_tasks.filter
      fun r => r.projectId == wProject1.id)
      = wProject1.tasks.map (projectTaskRowOf wProject1.id) :=
  (C2_project_save_roundtrip "u-1" wProject1 wStore2 (by decide) (by decide) (by decide)
    (by decide)).2.1

/-! ### Idea conversion endpoint (server.js) -/

/-- The optional overrides read from the POST body of the conversion
endpoint; an empty request body supplies none of them. -/
structure ConvertBody where
  name : Option String
  description : Option String
  status : Option String
  startDate : Option String
  dueDate : Option String
deriving DecidableEq, Repr

/-- The empty request body. -/
def emptyBody : ConvertBody :=
  { name := none, description := none, status := none, startDate := none, dueDate := none }

/-- The projects row inserted by the conversion endpoint (server.js):
defaults come from the idea through JS falsy-or, startDate defaults to the
date part of the current ISO timestamp, and the source-tracking columns are
copied from the idea. -/
def convertProjectRow (u : String) (idea : IdeaRow) (body : ConvertBody)
    (freshId now : String) : ProjectRow :=
  { id := freshId, userId := some u,
    name := jsOr body.name idea.title,
    description := jsOr body.description idea.description,
    status := jsOr body.status "Not Started",
    startDate := jsOr body.startDate (dateSlice now),
    dueDate := jsOr body.dueDate "",
    createdAt := now,
    sourceIdeaId := some idea.id, sourceIdeaTitle := some idea.title,
    sourceEngagementId := jsOrNull idea.engagementId,
    sourceEngagementName := jsOrNull idea.engagementName }

/-- The JSON object returned by a successful conversion (server.js). -/
structure ConvertedProject where
  id : String
  name : String
  description : String
  status : String
  startDate : String
  dueDate : String
  createdAt : String
  tasks : List ProjectTaskOut
  researchNotes : List ResearchNoteRow
  sourceIdeaId : String
  sourceIdeaTitle : String
  sourceEngagementId : Option String
  sourceEngagementName : Option String
deriving DecidableEq, Repr

/-- Outcome of the conversion endpoint: 404 or the created project. -/
inductive ConvertResp where
  | notFound
  | ok (p : ConvertedProject)
deriving DecidableEq, Repr

/-- POST /api/ideas/:id/convert-to-project (server.js): look up the idea by
id and requesting user; on miss respond 404 with no writes; on hit insert a
new projects row (the generated fresh id and current timestamp are passed
as parameters), update the idea row to convertedToProjectId = new id and
status Implemented, and return the created project with empty child
arrays. -/
def convertIdea (u ideaId : String) (body : ConvertBody) (freshId now : String)
    (s : Store) : Store × ConvertResp :=
  match s.ideas.find? (fun i => i.id == ideaId && i.userId == some u) with
  | none => (s, ConvertResp.notFound)
  | some idea =>
    let row := convertProjectRow u idea body freshId now
    ({ s with
        projects := s.projects ++ [row],
        ideas := s.ideas.map fun i =>
          if i.id == ideaId && i.userId == some u then
            { i with convertedToProjectId := some freshId, status := "Implemented" }
          else i },
      ConvertResp.ok
        { id := freshId, name := row.name, description := row.description,
          status := row.status, startDate := row.startDate, dueDate := row.dueDate,
          createdAt := now, tasks := [], researchNotes := [],
          sourceIdeaId := idea.id, sourceIdeaTitle := idea.title,
          sourceEngagementId := jsOrNull idea.engagementId,
          sourceEngagementName := jsOrNull idea.engagementName })

/-- Claim C3: converting an idea X owned by the requesting user with an
empty body appends exactly one new projects row whose sourceIdeaId is X.id,
whose name is X.title, whose description is the legacy description mirror
of the idea, whose status is Not Started and whose startDate is the date
part of the current timestamp; the response carries empty tasks and
researchNotes arrays; and the idea row is updated to convertedToProjectId =
new project id and status Implemented (ideas with a different id are left
unchanged). The freshness hypothesis keeps the append model of the INSERT
faithful to the primary-key constraint. -/
theorem C3_convert_idea (u ideaId freshId now : String) (X : IdeaRow) (s : Store)
    (hfind : s.ideas.find? (fun i => i.id == ideaId && i.userId == some u) = some X)
    (hfresh : ∀ r ∈ s.projects, r.id ≠ freshId) :
    (convertIdea u ideaId emptyBody freshId now s).1.projects
      = s.projects ++ [convertProjectRow u X emptyBody freshId now] ∧
    (convertProjectRow u X emptyBody freshId now).sourceIdeaId = some X.id ∧
    (convertProjectRow u X emptyBody freshId now).name = X.title ∧
    (convertProjectRow u X emptyBody freshId now).description = X.description ∧
    (convertProjectRow u X emptyBody freshId now).status = "Not Started" ∧
    (convertProjectRow u X emptyBody freshId now).startDate = dateSlice now ∧
    (convertIdea u ideaId emptyBody freshId now s).2 = ConvertResp.ok
      { id := freshId, name := X.title, description := X.description,
        status := "Not Started", startDate := dateSlice now, dueDate := "",
        createdAt := now, tasks := [], researchNotes := [],
        sourceIdeaId := X.id, sourceIdeaTitle := X.title,
        sourceEngagementId := jsOrNull X.engagementId,
        sourceEngagementName := jsOrNull X.engagementName } ∧
    ({ X with convertedToProjectId := some freshId, status := "Implemented" } : IdeaRow)
      ∈ (convertIdea u ideaId emptyBody freshId now s).1.ideas ∧
    (∀ i ∈ s.ideas, i.id ≠ X.id →
      i ∈ (convertIdea u ideaId emptyBody freshId now s).1.ideas) := by
  have hpred := List.find?_some hfind
  have hXmem : X ∈ s.ideas := List.mem_of_find?_eq_some hfind
  rw [Bool.and_eq_true, beq_iff_eq, beq_iff_eq] at hpred
  have hrw : convertIdea u ideaId emptyBody freshId now s
      = ({ s with
            projects := s.projects ++ [convertProjectRow u X emptyBody freshId now],
            ideas := s.ideas.map fun i =>
              if i.id == ideaId && i.userId == some u then
                { i with convertedToProjectId := some freshId, status := "Implemented" }
              else i },
          ConvertResp.ok
            { id := freshId,
              name := (convertProjectRow u X emptyBody freshId now).name,
              description := (convertProjectRow u X emptyBody freshId now).description,
              status := (convertProjectRow u X emptyBody freshId now).status,
              startDate := (convertProjectRow u X emptyBody freshId now).startDate,
              dueDate := (convertProjectRow u X emptyBody freshId now).dueDate,
              createdAt := now, tasks := [], researchNotes := [],
              sourceIdeaId := X.id, sourceIdeaTitle := X.title,
              sourceEngagementId := jsOrNull X.engagementId,
              sourceEngagementName := jsOrNull X.engagementName }) := by
    unfold convertIdea
    rw [hfind]
  rw [hrw]
  refine ⟨rfl, rfl, rfl, rfl, rfl, rfl, rfl, ?_, ?_⟩
  · exact List.mem_map.mpr ⟨X, hXmem, by simp [hpred.1, hpred.2]⟩
  · intro i hi hine
    refine List.mem_map.mpr ⟨i, hi, ?_⟩
    have : (i.id == ideaId) = false := by
      rw [← hpred.1]
      simp [hine]
    simp [this]

def wIdea1 : IdeaRow :=
  { id := "idea-1", userId := some "u-1", title := "Automated Status Tool",
    description := "Script for Jira", entries := "[]", category := "Process",
    priority := "High", status := "New", createdAt := "c0", updatedAt := none,
    aiSummary := none, lastSummaryDate := none, engagementId := none,
    engagementName := none, convertedToProjectId := none }

def wStore3 : Store := { wStore0 with ideas := [wIdea1] }

theorem C3_convert_idea_witness :
    (convertIdea "u-1" "idea-1" emptyBody "proj-new" "2024-05-05T12:00:00.000Z" wStore3).1.projects
      = wStore3.projects
        ++ [convertProjectRow "u-1" wIdea1 emptyBody "proj-new" "2024-05-05T12:00:00.000Z"] :=
  (C3_convert_idea "u-1" "idea-1" "proj-new" "2024-05-05T12:00:00.000Z" wIdea1 wStore3
    (by decide) (by decide)).1

/-- Claim C5: if no idea row with the given id and the requesting user
exists, the conversion endpoint responds not-found and leaves the whole
store unchanged: no project row is inserted and no idea row is modified. -/
theorem C5_convert_not_found_no_writes (u ideaId : String) (body : ConvertBody)
    (freshId now : String) (s : Store)
    (hfind : s.ideas.find? (fun i => i.id == ideaId && i.userId == some u) = none) :
    (convertIdea u ideaId body freshId now s).1 = s ∧
    (convertIdea u ideaId body freshId now s).2 = ConvertResp.notFound := by
  simp only [convertIdea, hfind]
  exact ⟨by trivial, by trivial⟩

theorem C5_convert_not_found_no_writes_witness :
    (convertIdea "u-1" "idea-missing" emptyBody "proj-new" "now" wStore3).1 = wStore3 :=
  (C5_convert_not_found_no_writes "u-1" "idea-missing" emptyBody "proj-new" "now" wStore3
    (by decide)).1

/-- Claim C6: re-converting an already-converted idea (convertedToProjectId
set, status Implemented) succeeds with no guard: a second project row with
the fresh id is appended, the idea's convertedToProjectId is overwritten
with the new id, and the first project row stays in the table but is no
longer the one the idea references. -/
theorem C6_reconversion_not_idempotent (u ideaId freshId now oldPid : String)
    (body : ConvertBody) (X : IdeaRow) (oldRow : ProjectRow) (s : Store)
    (hfind : s.ideas.find? (fun i => i.id == ideaId && i.userId == some u) = some X)
    (hconv : X.convertedToProjectId = some oldPid)
    (hstat : X.status = "Implemented")
    (hold : oldRow ∈ s.projects) (holdid : oldRow.id = oldPid)
    (hne : freshId ≠ oldPid)
    (hfresh : ∀ r ∈ s.projects, r.id ≠ freshId) :
    (convertIdea u ideaId body freshId now s).2
      ≠ ConvertResp.notFound ∧
    (convertIdea u ideaId body freshId now s).1.projects
      = s.projects ++ [convertProjectRow u X body freshId now] ∧
    (convertProjectRow u X body freshId now).id = freshId ∧
    oldRow ∈ (convertIdea u ideaId body freshId now s).1.projects ∧
    ({ X with convertedToProjectId := some freshId, status := "Implemented" } : IdeaRow)
      ∈ (convertIdea u ideaId body freshId now s).1.ideas ∧
    some freshId ≠ X.convertedToProjectId := by
  have hpred := List.find?_some hfind
  have hXmem : X ∈ s.ideas := List.mem_of_find?_eq_some hfind
  rw [Bool.and_eq_true, beq_iff_eq, beq_iff_eq] at hpred
  simp only [convertIdea, hfind]
  refine ⟨by simp, by trivial, by trivial, ?_, ?_, ?_⟩
  · exact List.mem_append.mpr (Or.inl hold)
  · exact List.mem_map.mpr ⟨X, hXmem, by simp [hpred.1, hpred.2]⟩
  · rw [hconv]
    simp [hne]

def wIdea2 : IdeaRow :=
  { wIdea1 with
      id := "idea-2", status := "Implemented", convertedToProjectId := some "proj-old" }

def wOldProj : ProjectRow :=
  { id := "proj-old", userId := some "u-1", name := "Automated Status Tool",
    description := "Script for Jira", status := "Not Started", startDate := "2024-01-01",
    dueDate := "", createdAt := "c0", sourceIdeaId := some "idea-2",
    sourceIdeaTitle := some "Automated Status Tool", sourceEngagementId := none,
    sourceEngagementName := none }

def wStore6 : Store := { wStore0 with ideas := [wIdea2], projects := [wOldProj] }

theorem C6_reconversion_not_idempotent_witness :
    wOldProj ∈ (convertIdea "u-1" "idea-2" emptyBody "proj-new2" "now" wStore6).1.projects :=
  (C6_reconversion_not_idempotent "u-1" "idea-2" "proj-new2" "now" "proj-old" emptyBody
    wIdea2 wOldProj wStore6 (by decide) (by decide) (by decide) (by decide) (by decide)
    (by decide) (by decide)).2.2.2.1

/-! ### Registration endpoint (server.js) -/

/-- ASCII lowercasing of one character, as JS toLowerCase and SQLite LOWER
act on the ASCII range of the email strings involved. -/
def lowerChar (c : Char) : Char :=
  if 'A' ≤ c ∧ c ≤ 'Z' then Char.ofNat (c.toNat + 32) else c

/-- JS email.toLowerCase() (and SQLite LOWER) on an ASCII string. -/
def jsToLower (s : String) : String := String.mk (s.data.map lowerChar)

/-- A registration request body; a missing field is JS-falsy like the empty
string and is modelled by the empty string. -/
structure RegisterReq where
  email : String
  password : String
  name : String
deriving DecidableEq, Repr

/-- Outcome of POST /api/auth/register. -/
inductive RegisterResp where
  | badRequest (msg : String)
  | registered
deriving DecidableEq, Repr

/-- POST /api/auth/register (server.js): required-field and password-length
validation, then a lookup of the lowercased email among the stored users; a
hit answers 400 with no insert, a miss appends the new user row (generated
id, bcrypt hash and timestamp passed as parameters) with the email stored
lowercased. -/
def newUserRow (r : RegisterReq) (newId hash createdAt : String) : UserRow :=
  { id := newId, email := jsToLower r.email, passwordHash := hash, name := r.name,
    createdAt := createdAt }

def registerUser (r : RegisterReq) (newId hash createdAt : String) (s : Store) :
    Store × RegisterResp :=
  if r.email = "" ∨ r.password = "" ∨ r.name = "" then
    (s, RegisterResp.badRequest "Email, password, and name are required")
  else if r.password.length < 6 then
    (s, RegisterResp.badRequest "Password must be at least 6 characters")
  else
    match s.users.find? (fun usr => usr.email == jsToLower r.email) with
    | some _ => (s, RegisterResp.badRequest "Email already registered")
    | none =>
      ({ s with users := s.users ++ [newUserRow r newId hash createdAt] },
        RegisterResp.registered)

/-- Claim C9: a registration request whose email matches a stored user row
case-insensitively answers 400 Email already registered and inserts no new
user row: the whole store, in particular the users table, is unchanged.
The lowercase-stored-emails hypothesis is the invariant the register
endpoint itself maintains; under it the exact-match lookup on the
lowercased input is exactly a case-insensitive comparison. -/
theorem C9_register_duplicate_email (r : RegisterReq) (newId hash createdAt : String)
    (s : Store)
    (hemail : r.email ≠ "") (hpass : r.password ≠ "") (hname : r.name ≠ "")
    (hlen : ¬ r.password.length < 6)
    (hstored : ∀ usr ∈ s.users, jsToLower usr.email = usr.email)
    (hdup : ∃ usr ∈ s.users, jsToLower usr.email = jsToLower r.email) :
    (registerUser r newId hash createdAt s).1 = s ∧
    (registerUser r newId hash createdAt s).2
      = RegisterResp.badRequest "Email already registered" := by
  have hsome : (s.users.find? (fun usr => usr.email == jsToLower r.email)).isSome := by
    rw [List.find?_isSome]
    obtain ⟨usr, hmem, heq⟩ := hdup
    exact ⟨usr, hmem, by rw [beq_iff_eq, ← hstored usr hmem, heq]⟩
  obtain ⟨v, hv⟩ := Option.isSome_iff_exists.mp hsome
  have h1 : ¬ (r.email = "" ∨ r.password = "" ∨ r.name = "") := by
    push_neg
    exact ⟨hemail, hpass, hname⟩
  unfold registerUser
  rw [if_neg h1, if_neg hlen, hv]
  exact ⟨rfl, rfl⟩

def wUser1 : UserRow :=
  { id := "user-1", email := "dup@workmail.com", passwordHash := "h1", name := "Dee",
    createdAt := "c0" }

def wStore9 : Store := { wStore0 with users := [wUser1] }

def wReq9 : RegisterReq :=
  { email := "Dup@Workmail.com", password := "hunter22", name := "Dee Two" }

theorem C9_register_duplicate_email_witness :
    (registerUser wReq9 "user-2" "h2" "c1" wStore9).1 = wStore9 ∧
    (registerUser wReq9 "user-2" "h2" "c1" wStore9).2
      = RegisterResp.badRequest "Email already registered" :=
  C9_register_duplicate_email wReq9 "user-2" "h2" "c1" wStore9 (by decide) (by decide)
    (by decide) (by decide) (by decide) ⟨wUser1, by decide, by decide⟩

/-! ### JSON text blobs: the subtasks column

POST /api/tasks stores JSON.stringify of the subtasks array and GET
/api/tasks reads it back through JSON.parse (server.js). The serializer
below produces the stringify image of a subtask array (object keys in
interface order, quote and backslash escaped; the escapes JSON applies to
control characters are immaterial to round-tripping and are not modelled),
and the parser is the restriction of JSON.parse to that image. -/

/-- JSON string escaping of one character. -/
def escChar (c : Char) : List Char :=
  if c = '"' ∨ c = '\\' then ['\\', c] else [c]

/-- JSON string escaping of a character sequence. -/
def escChars : List Char → List Char
  | [] => []
  | c :: cs => escChar c ++ escChars cs

/-- The characters of the true/false literal. -/
def boolChars (b : Bool) : List Char := if b then "true".data else "false".data

/-- The stringify image of one subtask object. -/
def subtaskChars (st : Subtask) : List Char :=
  "\x7b\"id\":\"".data ++ escChars st.id.data ++ ['"']
    ++ ",\"content\":\"".data ++ escChars st.content.data ++ ['"']
    ++ ",\"isCompleted\":".data ++ boolChars st.isCompleted ++ "\x7d".data

/-- The comma-joined stringify images of the array elements. -/
def itemsChars : List Subtask → List Char
  | [] => []
  | [st] => subtaskChars st
  | st :: rest => subtaskChars st ++ ',' :: itemsChars rest

/-- JSON.stringify of a subtasks array, as stored in the tasks.subtasks
column. -/
def serializeSubtasks (sts : List Subtask) : String :=
  String.mk ('[' :: (itemsChars sts ++ [']']))

/-- Consumes an expected literal character sequence. -/
def expectChars : List Char → List Char → Option (List Char)
  | [], rest => some rest
  | _ :: _, [] => none
  | c :: cs, d :: rest => if c = d then expectChars cs rest else none

/-- Parses a JSON string body up to the closing quote, undoing the
escapes. -/
def parseStrAux : List Char → Option (List Char × List Char)
  | [] => none
  | c :: rest =>
    if c = '"' then some ([], rest)
    else if c = '\\' then
      match rest with
      | [] => none
      | e :: rest2 =>
        if e = '"' ∨ e = '\\' then
          match parseStrAux rest2 with
          | some (s, r) => some (e :: s, r)
          | none => none
        else none
    else
      match parseStrAux rest with
      | some (s, r) => some (c :: s, r)
      | none => none

/-- Parses a true/false literal. -/
def parseBoolChars (l : List Char) : Option (Bool × List Char) :=
  match expectChars "true".data l with
  | some r => some (true, r)
  | none =>
    match expectChars "false".data l with
    | some r => some (false, r)
    | none => none

/-- Parses one subtask object of the stringify image. -/
def parseSubtaskObj (l : List Char) : Option (Subtask × List Char) :=
  match expectChars "\x7b\"id\":\"".data l with
  | none => none
  | some l1 =>
    match parseStrAux l1 with
    | none => none
    | some (idChars, l2) =>
      match expectChars ",\"content\":\"".data l2 with
      | none => none
      | some l3 =>
        match parseStrAux l3 with
        | none => none
        | some (cChars, l4) =>
          match expectChars ",\"isCompleted\":".data l4 with
          | none => none
          | some l5 =>
            match parseBoolChars l5 with
            | none => none
            | some (b, l6) =>
              match expectChars "\x7d".data l6 with
              | none => none
              | some l7 =>
                some ({ id := String.mk idChars, content := String.mk cChars,
                        isCompleted := b }, l7)

/-- Parses the comma-separated objects up to the closing bracket; the fuel
bounds the number of elements. -/
def parseItems : Nat → List Char → Option (List Subtask × List Char)
  | 0, _ => none
  | Nat.succ fuel, l =>
    match parseSubtaskObj l with
    | none => none
    | some (st, l1) =>
      match l1 with
      | [] => none
      | c :: l2 =>
        if c = ',' then
          match parseItems fuel l2 with
          | none => none
          | some (sts, l3) => some (st :: sts, l3)
        else if c = ']' then some ([st], l2)
        else none

/-- JSON.parse of a subtasks column value, restricted to the stringify
image; any other text is a parse failure. -/
def parseSubtasks (s : String) : Option (List Subtask) :=
  match s.data with
  | [] => none
  | c :: l =>
    if c = '[' then
      if l = [']'] then some []
      else
        match parseItems l.length l with
        | some (sts, []) => some sts
        | _ => none
    else none

theorem expectChars_append (pre rest : List Char) :
    expectChars pre (pre ++ rest) = some rest := by
  induction pre with
  | nil => rfl
  | cons c cs ih => simp [expectChars, ih]

theorem parseStrAux_round (s rest : List Char) :
    parseStrAux (escChars s ++ '"' :: rest) = some (s, rest) := by
  induction s with
  | nil =>
    have h1 : escChars [] ++ '"' :: rest = '"' :: rest := by simp [escChars]
    rw [h1, parseStrAux.eq_def]
    simp
  | cons c cs ih =>
    by_cases hq : c = '"'
    · subst hq
      have h1 : escChars ('"' :: cs) ++ '"' :: rest
          = '\\' :: '"' :: (escChars cs ++ '"' :: rest) := by
        simp [escChars, escChar]
      rw [h1, parseStrAux.eq_def]
      simp [ih]
    · by_cases hb : c = '\\'
      · subst hb
        have h1 : escChars ('\\' :: cs) ++ '"' :: rest
            = '\\' :: '\\' :: (escChars cs ++ '"' :: rest) := by
          simp [escChars, escChar]
        rw [h1, parseStrAux.eq_def]
        simp [ih]
      · have h1 : escChars (c :: cs) ++ '"' :: rest
            = c :: (escChars cs ++ '"' :: rest) := by
          simp [escChars, escChar, hq, hb]
        rw [h1, parseStrAux.eq_def]
        simp [hq, hb, ih]

theorem parseBoolChars_round (b : Bool) (rest : List Char) :
    parseBoolChars (boolChars b ++ rest) = some (b, rest) := by
  cases b <;> simp [parseBoolChars, boolChars, expectChars]

theorem parseSubtaskObj_round (st : Subtask) (rest : List Char) :
    parseSubtaskObj (subtaskChars st ++ rest) = some (st, rest) := by
  have h1 : subtaskChars st ++ rest
      = "\x7b\"id\":\"".data ++ (escChars st.id.data ++ '"' ::
        (",\"content\":\"".data ++ (escChars st.content.data ++ '"' ::
          (",\"isCompleted\":".data ++ (boolChars st.isCompleted
            ++ ("\x7d".data ++ rest)))))) := by
    simp [subtaskChars]
  rw [h1]
  simp only [parseSubtaskObj, expectChars_append, parseStrAux_round, parseBoolChars_round]

theorem parseItems_round (sts : List Subtask) (hne : sts ≠ []) (rest : List Char)
    (fuel : Nat) (hf : sts.length ≤ fuel) :
    parseItems fuel (itemsChars sts ++ ']' :: rest) = some (sts, rest) := by
  induction sts generalizing fuel rest with
  | nil => exact absurd rfl hne
  | cons st tl ih =>
    obtain ⟨f, rfl⟩ : ∃ f, fuel = f + 1 := ⟨fuel - 1, by simp at hf; omega⟩
    cases tl with
    | nil =>
      have h1 : itemsChars [st] ++ ']' :: rest = subtaskChars st ++ ']' :: rest := by
        simp [itemsChars]
      rw [h1, parseItems.eq_def]
      simp [parseSubtaskObj_round]
    | cons st2 tl2 =>
      have h1 : itemsChars (st :: st2 :: tl2) ++ ']' :: rest
          = subtaskChars st ++ ',' :: (itemsChars (st2 :: tl2) ++ ']' :: rest) := by
        simp [itemsChars]
      have hf2 : (st2 :: tl2).length ≤ f := by simp at hf ⊢; omega
      rw [h1, parseItems.eq_def]
      simp [parseSubtaskObj_round, ih (by simp) rest f hf2]

theorem length_le_itemsChars (sts : List Subtask) :
    sts.length ≤ (itemsChars sts).length + 1 := by
  induction sts with
  | nil => simp [itemsChars]
  | cons st tl ih =>
    cases tl with
    | nil => simp [itemsChars]
    | cons st2 tl2 =>
      have h1 : itemsChars (st :: st2 :: tl2)
          = subtaskChars st ++ ',' :: itemsChars (st2 :: tl2) := by
        simp [itemsChars]
      rw [h1]
      simp only [List.length_cons, List.length_append] at ih ⊢
      omega

theorem subtaskChars_length_pos (st : Subtask) : 0 < (subtaskChars st).length := by
  simp [subtaskChars]

theorem itemsChars_cons_ne (st : Subtask) (tl : List Subtask) :
    itemsChars (st :: tl) ≠ [] := by
  cases tl <;> simp [itemsChars, subtaskChars]

theorem parseSubtasks_round (sts : List Subtask) :
    parseSubtasks (serializeSubtasks sts) = some sts := by
  cases sts with
  | nil => simp [parseSubtasks, serializeSubtasks, itemsChars]
  | cons st tl =>
    have hdata : (serializeSubtasks (st :: tl)).data
        = '[' :: (itemsChars (st :: tl) ++ [']']) := rfl
    have hne2 : itemsChars (st :: tl) ++ [']'] ≠ [']'] := by
      intro h
      have := congrArg List.length h
      simp at this
      exact itemsChars_cons_ne st tl this
    have hfuel : (st :: tl).length ≤ (itemsChars (st :: tl) ++ [']']).length := by
      have := length_le_itemsChars (st :: tl)
      simp
      simp at this
      omega
    have hitems : parseItems ((itemsChars (st :: tl)).length + 1)
        (itemsChars (st :: tl) ++ [']'])
        = some (st :: tl, []) := by
      have h : itemsChars (st :: tl) ++ [']'] = itemsChars (st :: tl) ++ ']' :: [] := rfl
      rw [h]
      exact parseItems_round (st :: tl) (by simp) [] _ (by simpa using hfuel)
    simp [parseSubtasks, hdata, hne2, hitems]

/-! ### Task, calendar and highlight endpoints (server.js) -/

/-- Wire shape of a task returned by GET /api/tasks: the row spread with the
flags coerced to Bool and the subtasks text parsed. -/
structure TaskOut where
  id : String
  userId : Option String
  content : String
  isCompleted : Bool
  type : String
  date : String
  createdAt : String
  isPriority : Bool
  engagementId : Option String
  projectId : Option String
  subtasks : List Subtask
deriving DecidableEq, Repr

/-- The tasks row written by POST /api/tasks (server.js): only the columns
named in its INSERT OR REPLACE receive values; the projectId column of the
schema is never written (NULL), and the request fields projectName and
engagementName have no columns at all. -/
def taskRowOf (u : String) (t : Task) : TaskRow :=
  { id := t.id, userId := some u, content := t.content,
    isCompleted := boolToInt t.isCompleted, type := t.type, date := t.date,
    createdAt := t.createdAt, isPriority := boolToInt t.isPriority,
    engagementId := t.engagementId, projectId := none,
    subtasks := serializeSubtasks t.subtasks }

/-- POST /api/tasks (server.js): INSERT OR REPLACE keyed on id. -/
def postTask (u : String) (t : Task) (s : Store) : Store :=
  { s with tasks := (s.tasks.filter fun r => r.id != t.id) ++ [taskRowOf u t] }

/-- Read shaping of one tasks row (server.js GET /api/tasks): flags through
double negation and the subtasks text through JSON.parse, whose throw
aborts the whole request (none); an empty column falls back to the empty
array literal. -/
def formatTaskRow (r : TaskRow) : Option TaskOut :=
  match parseSubtasks (if r.subtasks = "" then "[]" else r.subtasks) with
  | none => none
  | some sts =>
    some { id := r.id, userId := r.userId, content := r.content,
           isCompleted := truthyInt r.isCompleted, type := r.type, date := r.date,
           createdAt := r.createdAt, isPriority := truthyInt r.isPriority,
           engagementId := r.engagementId, projectId := r.projectId, subtasks := sts }

/-- Collects a list of optional values, failing if any is missing. -/
def optList {α : Type} : List (Option α) → Option (List α)
  | [] => some []
  | none :: _ => none
  | some a :: rest =>
    match optList rest with
    | some l => some (a :: l)
    | none => none

/-- GET /api/tasks (server.js): the user-scoped rows, each shaped for the
wire; a parse failure on any row fails the request. -/
def getTasks (u : String) (s : Store) : Option (List TaskOut) :=
  optList ((s.tasks.filter fun r => r.userId == some u).map formatTaskRow)

/-- The wire value GET /api/tasks yields for a task previously saved through
POST /api/tasks: flags and subtasks round-trip, projectId reads back as
NULL. -/
def taskOutOf (u : String) (t : Task) : TaskOut :=
  { id := t.id, userId := some u, content := t.content, isCompleted := t.isCompleted,
    type := t.type, date := t.date, createdAt := t.createdAt,
    isPriority := t.isPriority, engagementId := t.engagementId, projectId := none,
    subtasks := t.subtasks }

theorem serializeSubtasks_ne_empty (sts : List Subtask) : serializeSubtasks sts ≠ "" := by
  intro h
  have := congrArg String.data h
  simp [serializeSubtasks] at this

theorem formatTaskRow_taskRowOf (u : String) (t : Task) :
    formatTaskRow (taskRowOf u t) = some (taskOutOf u t) := by
  have hsub : (taskRowOf u t).subtasks = serializeSubtasks t.subtasks := rfl
  rw [formatTaskRow, hsub, if_neg (serializeSubtasks_ne_empty t.subtasks),
    parseSubtasks_round]
  simp [taskRowOf, taskOutOf, truthyInt_boolToInt]

theorem formatTaskRow_id (r : TaskRow) (x : TaskOut) (h : formatTaskRow r = some x) :
    x.id = r.id := by
  rw [formatTaskRow] at h
  cases hp : parseSubtasks (if r.subtasks = "" then "[]" else r.subtasks) with
  | none => rw [hp] at h; simp at h
  | some sts =>
    rw [hp] at h
    injection h with h2
    rw [← h2]

/-- Locating the freshly written row among the formatted user rows. -/
theorem optList_found (rows : List TaskRow) (row : TaskRow) (out : TaskOut)
    (tid : String)
    (hrows : ∀ r ∈ rows, (formatTaskRow r).isSome)
    (hne : ∀ r ∈ rows, r.id ≠ tid)
    (hrow : formatTaskRow row = some out)
    (houtid : out.id = tid) :
    ∃ l, optList ((rows ++ [row]).map formatTaskRow) = some l ∧
      l.find? (fun x => x.id == tid) = some out := by
  induction rows with
  | nil =>
    refine ⟨[out], ?_, ?_⟩
    · simp [optList, hrow]
    · simp [List.find?, houtid]
  | cons r rows ih =>
    obtain ⟨x, hx⟩ := Option.isSome_iff_exists.mp (hrows r (by simp))
    obtain ⟨l, hl, hfind⟩ := ih (fun r2 h2 => hrows r2 (by simp [h2]))
      (fun r2 h2 => hne r2 (by simp [h2]))
    refine ⟨x :: l, ?_, ?_⟩
    · simp only [List.cons_append, List.map_cons, optList, hx, hl]
    · have hxid : ¬ x.id = tid := by
        rw [formatTaskRow_id r x hx]
        exact hne r (by simp)
      rw [List.find?_cons_of_neg _ (by simp [hxid]), hfind]

/-- A task saved through POST /api/tasks is found again by GET /api/tasks,
shaped as taskOutOf. -/
theorem getTasks_post_found (u : String) (t : Task) (s : Store)
    (hwf : ∀ r ∈ s.tasks, (formatTaskRow r).isSome) :
    (getTasks u (postTask u t s)).map (fun l => l.find? fun x => x.id == t.id)
      = some (some (taskOutOf u t)) := by
  have hproj : (postTask u t s).tasks
      = (s.tasks.filter fun r => r.id != t.id) ++ [taskRowOf u t] := rfl
  have hfilter : ((postTask u t s).tasks.filter fun r => r.userId == some u)
      = ((s.tasks.filter fun r => r.id != t.id).filter fun r => r.userId == some u)
        ++ [taskRowOf u t] := by
    rw [hproj, List.filter_append]
    simp [taskRowOf]
  obtain ⟨l, hl, hfind⟩ := optList_found
    ((s.tasks.filter fun r => r.id != t.id).filter fun r => r.userId == some u)
    (taskRowOf u t) (taskOutOf u t) t.id
    (fun r hr => hwf r (List.mem_of_mem_filter (List.mem_of_mem_filter hr)))
    (fun r hr => by
      have := (List.mem_filter.mp (List.mem_filter.mp hr).1).2
      simpa using this)
    (formatTaskRow_taskRowOf u t) rfl
  rw [getTasks, hfilter, hl]
  simp [hfind]

/-- CalendarEvent as submitted by the client (types.ts); an absent momSent
is JS-falsy and stores 0, modelled by false. -/
structure CalendarEvent where
  id : String
  title : String
  description : Option String
  date : String
  startTime : String
  endTime : String
  type : String
  meetingNotes : Option String
  momSent : Bool
deriving DecidableEq, Repr

/-- The calendar_events row written by POST /api/calendar (server.js). -/
def calendarRowOf (u : String) (e : CalendarEvent) : CalendarEventRow :=
  { id := e.id, userId := some u, title := e.title, description := e.description,
    date := e.date, startTime := e.startTime, endTime := e.endTime, type := e.type,
    meetingNotes := e.meetingNotes, momSent := boolToInt e.momSent }

/-- POST /api/calendar (server.js): INSERT OR REPLACE keyed on id. -/
def postCalendar (u : String) (e : CalendarEvent) (s : Store) : Store :=
  { s with calendar_events :=
      (s.calendar_events.filter fun r => r.id != e.id) ++ [calendarRowOf u e] }

/-- Wire shape of a calendar event returned by GET /api/calendar. -/
structure CalendarEventOut where
  id : String
  userId : Option String
  title : String
  description : Option String
  date : String
  startTime : String
  endTime : String
  type : String
  meetingNotes : Option String
  momSent : Bool
deriving DecidableEq, Repr

/-- Read shaping of one calendar row (server.js GET /api/calendar): the row
spread with momSent coerced to Bool. -/
def formatCalendarRow (r : CalendarEventRow) : CalendarEventOut :=
  { id := r.id, userId := r.userId, title := r.title, description := r.description,
    date := r.date, startTime := r.startTime, endTime := r.endTime, type := r.type,
    meetingNotes := r.meetingNotes, momSent := truthyInt r.momSent }

/-- GET /api/calendar (server.js). -/
def getCalendar (u : String) (s : Store) : List CalendarEventOut :=
  (s.calendar_events.filter fun r => r.userId == some u).map formatCalendarRow

/-- The wire value GET /api/calendar yields for an event saved through POST
/api/calendar. -/
def calendarOutOf (u : String) (e : CalendarEvent) : CalendarEventOut :=
  { id := e.id, userId := some u, title := e.title, description := e.description,
    date := e.date, startTime := e.startTime, endTime := e.endTime, type := e.type,
    meetingNotes := e.meetingNotes, momSent := e.momSent }

/-- Highlight as submitted by the client (types.ts). -/
structure Highlight where
  id : String
  content : String
  impact : String
  date : String
  needsFollowUp : Bool
  followUpContext : Option String
  createdAt : String
deriving DecidableEq, Repr

/-- The highlights row written by POST /api/highlights (server.js). -/
def highlightRowOf (u : String) (h : Highlight) : HighlightRow :=
  { id := h.id, userId := some u, content := h.content, impact := h.impact,
    date := h.date, needsFollowUp := boolToInt h.needsFollowUp,
    followUpContext := h.followUpContext, createdAt := h.createdAt }

/-- POST /api/highlights (server.js): INSERT OR REPLACE keyed on id. -/
def postHighlight (u : String) (h : Highlight) (s : Store) : Store :=
  { s with highlights :=
      (s.highlights.filter fun r => r.id != h.id) ++ [highlightRowOf u h] }

/-- Wire shape of a highlight returned by GET /api/highlights. -/
structure HighlightOut where
  id : String
  userId : Option String
  content : String
  impact : String
  date : String
  needsFollowUp : Bool
  followUpContext : Option String
  createdAt : String
deriving DecidableEq, Repr

/-- Read shaping of one highlights row (server.js GET /api/highlights). -/
def formatHighlightRow (r : HighlightRow) : HighlightOut :=
  { id := r.id, userId := r.userId, content := r.content, impact := r.impact,
    date := r.date, needsFollowUp := truthyInt r.needsFollowUp,
    followUpContext := r.followUpContext, createdAt := r.createdAt }

/-- GET /api/highlights (server.js). -/
def getHighlights (u : String) (s : Store) : List HighlightOut :=
  (s.highlights.filter fun r => r.userId == some u).map formatHighlightRow

/-- The wire value GET /api/highlights yields for a highlight saved through
POST /api/highlights. -/
def highlightOutOf (u : String) (h : Highlight) : HighlightOut :=
  { id := h.id, userId := some u, content := h.content, impact := h.impact,
    date := h.date, needsFollowUp := h.needsFollowUp,
    followUpContext := h.followUpContext, createdAt := h.createdAt }

theorem getCalendar_post_found (u : String) (e : CalendarEvent) (s : Store) :
    (getCalendar u (postCalendar u e s)).find? (fun x => x.id == e.id)
      = some (calendarOutOf u e) := by
  have hproj : (postCalendar u e s).calendar_events
      = (s.calendar_events.filter fun r => r.id != e.id) ++ [calendarRowOf u e] := rfl
  rw [getCalendar, hproj, List.filter_append,
    show ([calendarRowOf u e].filter fun r => r.userId == some u) = [calendarRowOf u e] by
      simp [calendarRowOf],
    List.map_append]
  rw [find?_append_of_none]
  · simp [List.find?, formatCalendarRow, calendarRowOf, calendarOutOf, truthyInt_boolToInt]
  · intro x hx
    rcases List.mem_map.mp hx with ⟨r, hr, rfl⟩
    have hne := (List.mem_filter.mp (List.mem_filter.mp hr).1).2
    simp only [bne_iff_ne, ne_eq] at hne
    simp [formatCalendarRow, hne]

theorem getHighlights_post_found (u : String) (h : Highlight) (s : Store) :
    (getHighlights u (postHighlight u h s)).find? (fun x => x.id == h.id)
      = some (highlightOutOf u h) := by
  have hproj : (postHighlight u h s).highlights
      = (s.highlights.filter fun r => r.id != h.id) ++ [highlightRowOf u h] := rfl
  rw [getHighlights, hproj, List.filter_append,
    show ([highlightRowOf u h].filter fun r => r.userId == some u) = [highlightRowOf u h] by
      simp [highlightRowOf],
    List.map_append]
  rw [find?_append_of_none]
  · simp [List.find?, formatHighlightRow, highlightRowOf, highlightOutOf, truthyInt_boolToInt]
  · intro x hx
    rcases List.mem_map.mp hx with ⟨r, hr, rfl⟩
    have hne := (List.mem_filter.mp (List.mem_filter.mp hr).1).2
    simp only [bne_iff_ne, ne_eq] at hne
    simp [formatHighlightRow, hne]

def wSubtask1 : Subtask :=
  { id := "st-1", content := "check \"variance\" \\ twice", isCompleted := true }

def wSubtask2 : Subtask :=
  { id := "st-2", content := "format slides", isCompleted := false }

def wTask7 : Task :=
  { id := "task-7", content := "Review Q3 reports", isCompleted := false, type := "daily",
    date := "2024-01-01", createdAt := "c0", isPriority := true,
    subtasks := [wSubtask1, wSubtask2], engagementId := none, engagementName := none,
    projectId := none, projectName := none }

def wEvent7 : CalendarEvent :=
  { id := "ce-7", title := "Client Sync", description := some "Weekly update",
    date := "2024-01-01", startTime := "10:00", endTime := "11:00", type := "meeting",
    meetingNotes := none, momSent := true }

def wHighlight7 : Highlight :=
  { id := "h-7", content := "Solved caching latency", impact := "High impact.",
    date := "2024-01-01", needsFollowUp := true,
    followUpContext := some "Schedule session.", createdAt := "c0" }

/-- Claim C10: POST /api/tasks writes only the columns of its INSERT list —
id, userId, content, isCompleted, type, date, createdAt, isPriority,
subtasks, engagementId — so a task submitted with projectId set (and any
projectName or engagementName, which have no columns at all) is stored with
a NULL projectId column, and the task returned by a subsequent GET
/api/tasks carries projectId = none: a project-derived task saved through
the task endpoint reads back as a standalone task. -/
theorem C10_task_post_drops_project_linkage (u : String) (t : Task) (pid : String)
    (s : Store)
    (hpid : t.projectId = some pid)
    (hwf : ∀ r ∈ s.tasks, (formatTaskRow r).isSome) :
    (taskRowOf u t).projectId = none ∧
    ((getTasks u (postTask u t s)).map fun l => l.find? fun x => x.id == t.id)
      = some (some (taskOutOf u t)) ∧
    (taskOutOf u t).projectId = none :=
  ⟨rfl, getTasks_post_found u t s hwf, rfl⟩

def wTask10 : Task :=
  { id := "pt-1", content := "Complete Section 1-4", isCompleted := true, type := "daily",
    date := "2024-01-01", createdAt := "c0", isPriority := false, subtasks := [],
    engagementId := none, engagementName := none, projectId := some "p-1",
    projectName := some "Cert" }

theorem C10_task_post_drops_project_linkage_witness :
    (taskRowOf "u-1" wTask10).projectId = none ∧
    ((getTasks "u-1" (postTask "u-1" wTask10 wStore0)).map
        fun l => l.find? fun x => x.id == wTask10.id)
      = some (some (taskOutOf "u-1" wTask10)) ∧
    (taskOutOf "u-1" wTask10).projectId = none :=
  C10_task_post_drops_project_linkage "u-1" wTask10 "p-1" wStore0 rfl (by decide)

/-! ### Multi-tenancy migration and startup order (database.js, server.js) -/

/-- The designated legacy account (database.js, RISHAV_EMAIL). -/
def legacyEmail : String := "newrishav@gmail.com"

/-- The lookup SELECT id FROM users WHERE LOWER(email) = LOWER(?) run by the
migration's deferred data phase (database.js). -/
def findLegacyUser (s : Store) : Option UserRow :=
  s.users.find? fun usr => jsToLower usr.email == jsToLower legacyEmail

/-- The data-assignment phase of migrateToMultiTenancy (database.js): when
the legacy user is absent the store is untouched; when present, every row
with NULL userId in each of the eight entity tables and in settings is
assigned to that user (project_tasks, research_notes and users carry no
userId and are not in the migrated table list). -/
def migrateData (s : Store) : Store :=
  match findLegacyUser s with
  | none => s
  | some usr =>
    { s with
      engagements := s.engagements.map fun r => if r.userId = none then { r with userId := some usr.id } else r,
      tasks := s.tasks.map fun r => if r.userId = none then { r with userId := some usr.id } else r,
      projects := s.projects.map fun r => if r.userId = none then { r with userId := some usr.id } else r,
      highlights := s.highlights.map fun r => if r.userId = none then { r with userId := some usr.id } else r,
      ideas := s.ideas.map fun r => if r.userId = none then { r with userId := some usr.id } else r,
      calendar_events := s.calendar_events.map fun r => if r.userId = none then { r with userId := some usr.id } else r,
      useful_links := s.useful_links.map fun r => if r.userId = none then { r with userId := some usr.id } else r,
      notes := s.notes.map fun r => if r.userId = none then { r with userId := some usr.id } else r,
      settings := s.settings.map fun r => if r.userId = none then { r with userId := some usr.id } else r }

/-- The observable startup steps of the Node process. -/
inductive StartupEvent where
  | dbOpenRequested
  | listenCalled
  | schemaStatementsRun
  | userIdColumnsAdded
  | migrationTimerScheduled
  | migrationDataRun
deriving DecidableEq, BEq, Repr

/-- The startup order under the JS event loop: module evaluation runs
synchronously (the sqlite open is requested in database.js, then server.js
registers routes and calls app.listen); the sqlite open callback
(initDatabase: CREATE TABLE statements, the ALTER TABLE userId column adds,
and the setTimeout that schedules the migration data phase 500 ms out) runs
on a later event-loop turn; the timer callback (the data-assignment phase,
migrateData) runs last. -/
def startupTrace : List StartupEvent :=
  [StartupEvent.dbOpenRequested, StartupEvent.listenCalled,
   StartupEvent.schemaStatementsRun, StartupEvent.userIdColumnsAdded,
   StartupEvent.migrationTimerScheduled, StartupEvent.migrationDataRun]

/-- Claim C8 counterexample: the migration's data-assignment phase does NOT
complete before the server starts accepting traffic — app.listen is
executed synchronously at module load, while the data phase sits behind a
500 ms timer, so in the startup trace it runs strictly after listen. -/
theorem C8_counterexample_migration_after_listen :
    ¬ (startupTrace.indexOf StartupEvent.migrationDataRun
        < startupTrace.indexOf StartupEvent.listenCalled) := by decide

/-- Claim C8 as amended: the one-time migration is a startup side effect
(both app.listen and the migration data phase occur in the startup trace),
but listen precedes the deferred data phase, so completion before the
first userId-scoped traffic is not guaranteed. The data phase itself
behaves as described: with the legacy user absent the store is untouched,
and with the legacy user found every null-userId row of every entity table
and of settings is stamped with that user's id while rows with a userId
keep it, users, project_tasks and research_notes being untouched; no
orphaned row remains afterwards. -/
theorem C8_migration_startup_behavior :
    (StartupEvent.listenCalled ∈ startupTrace ∧
     StartupEvent.migrationDataRun ∈ startupTrace ∧
     startupTrace.indexOf StartupEvent.listenCalled
       < startupTrace.indexOf StartupEvent.migrationDataRun) ∧
    (∀ s : Store, findLegacyUser s = none → migrateData s = s) ∧
    (∀ s : Store, ∀ usr : UserRow, findLegacyUser s = some usr →
      (migrateData s).engagements = s.engagements.map (fun r => if r.userId = none then { r with userId := some usr.id } else r) ∧
      (migrateData s).tasks = s.tasks.map (fun r => if r.userId = none then { r with userId := some usr.id } else r) ∧
      (migrateData s).projects = s.projects.map (fun r => if r.userId = none then { r with userId := some usr.id } else r) ∧
      (migrateData s).highlights = s.highlights.map (fun r => if r.userId = none then { r with userId := some usr.id } else r) ∧
      (migrateData s).ideas = s.ideas.map (fun r => if r.userId = none then { r with userId := some usr.id } else r) ∧
      (migrateData s).calendar_events = s.calendar_events.map (fun r => if r.userId = none then { r with userId := some usr.id } else r) ∧
      (migrateData s).useful_links = s.useful_links.map (fun r => if r.userId = none then { r with userId := some usr.id } else r) ∧
      (migrateData s).notes = s.notes.map (fun r => if r.userId = none then { r with userId := some usr.id } else r) ∧
      (migrateData s).settings = s.settings.map (fun r => if r.userId = none then { r with userId := some usr.id } else r) ∧
      (migrateData s).users = s.users ∧
      (migrateData s).project_tasks = s.project_tasks ∧
      (migrateData s).research_notes = s.research_notes ∧
      (∀ r ∈ (migrateData s).tasks, r.userId ≠ none) ∧
      (∀ r ∈ (migrateData s).settings, r.userId ≠ none)) := by
  refine ⟨⟨by simp [startupTrace], by simp [startupTrace], by decide⟩, ?_, ?_⟩
  · intro s hnone
    unfold migrateData
    rw [hnone]
  · intro s usr hfound
    have hrw : migrateData s
        = { s with
            engagements := s.engagements.map fun r => if r.userId = none then { r with userId := some usr.id } else r,
            tasks := s.tasks.map fun r => if r.userId = none then { r with userId := some usr.id } else r,
            projects := s.projects.map fun r => if r.userId = none then { r with userId := some usr.id } else r,
            highlights := s.highlights.map fun r => if r.userId = none then { r with userId := some usr.id } else r,
            ideas := s.ideas.map fun r => if r.userId = none then { r with userId := some usr.id } else r,
            calendar_events := s.calendar_events.map fun r => if r.userId = none then { r with userId := some usr.id } else r,
            useful_links := s.useful_links.map fun r => if r.userId = none then { r with userId := some usr.id } else r,
            notes := s.notes.map fun r => if r.userId = none then { r with userId := some usr.id } else r,
            settings := s.settings.map fun r => if r.userId = none then { r with userId := some usr.id } else r } := by
      unfold migrateData
      rw [hfound]
    rw [hrw]
    refine ⟨rfl, rfl, rfl, rfl, rfl, rfl, rfl, rfl, rfl, rfl, rfl, rfl, ?_, ?_⟩
    · intro r hr
      rcases List.mem_map.mp hr with ⟨r0, hr0, rfl⟩
      by_cases h0 : r0.userId = none <;> simp [h0]
    · intro r hr
      rcases List.mem_map.mp hr with ⟨r0, hr0, rfl⟩
      by_cases h0 : r0.userId = none <;> simp [h0]

def wLegacyUser : UserRow :=
  { id := "user-legacy", email := "NewRishav@Gmail.com", passwordHash := "h",
    name := "Rishav", createdAt := "c0" }

def wOrphanTask : TaskRow :=
  { id := "task-orphan", userId := none, content := "old row", isCompleted := 0,
    type := "daily", date := "2023-01-01", createdAt := "c-old", isPriority := 0,
    engagementId := none, projectId := none, subtasks := "[]" }

def wStoreM : Store := { wStore0 with users := [wLegacyUser], tasks := [wOrphanTask] }

theorem C8_migration_startup_behavior_witness :
    (migrateData wStoreM).tasks
      = wStoreM.tasks.map
          (fun r => if r.userId = none then { r with userId := some "user-legacy" } else r) :=
  ((C8_migration_startup_behavior.2.2 wStoreM wLegacyUser (by decide)).2.1)

/-! ### JSON text blobs: generic array serializer and parser

The remaining blob columns (note tags, engagement timeline and files, idea
entries) all store the JSON.stringify image of an array; the machinery
below is the array layer generic in the element serializer and parser,
with the same round-trip guarantee as the subtasks column. -/

/-- The comma-joined stringify images of the array elements. -/
def arrItemsChars {α : Type} (f : α → List Char) : List α → List Char
  | [] => []
  | [x] => f x
  | x :: rest => f x ++ ',' :: arrItemsChars f rest

/-- JSON.stringify of an array of elements stringified by f. -/
def serializeArr {α : Type} (f : α → List Char) (xs : List α) : String :=
  String.mk ('[' :: (arrItemsChars f xs ++ [']']))

/-- Parses the comma-separated elements up to the closing bracket; the fuel
bounds the number of elements. -/
def parseArrItems {α : Type} (pObj : List Char → Option (α × List Char)) :
    Nat → List Char → Option (List α × List Char)
  | 0, _ => none
  | Nat.succ fuel, l =>
    match pObj l with
    | none => none
    | some (x, l1) =>
      match l1 with
      | [] => none
      | c :: l2 =>
        if c = ',' then
          match parseArrItems pObj fuel l2 with
          | none => none
          | some (xs, l3) => some (x :: xs, l3)
        else if c = ']' then some ([x], l2)
        else none

/-- JSON.parse of an array column value, restricted to the stringify
image; any other text is a parse failure. -/
def parseArr {α : Type} (pObj : List Char → Option (α × List Char)) (s : String) :
    Option (List α) :=
  match s.data with
  | [] => none
  | c :: l =>
    if c = '[' then
      if l = [']'] then some []
      else
        match parseArrItems pObj l.length l with
        | some (xs, []) => some xs
        | _ => none
    else none

theorem parseArrItems_round {α : Type} (f : α → List Char)
    (pObj : List Char → Option (α × List Char))
    (hobj : ∀ x rest, pObj (f x ++ rest) = some (x, rest))
    (xs : List α) (hne : xs ≠ []) (rest : List Char) (fuel : Nat)
    (hf : xs.length ≤ fuel) :
    parseArrItems pObj fuel (arrItemsChars f xs ++ ']' :: rest) = some (xs, rest) := by
  induction xs generalizing fuel rest with
  | nil => exact absurd rfl hne
  | cons x tl ih =>
    obtain ⟨g, rfl⟩ : ∃ g, fuel = g + 1 := ⟨fuel - 1, by simp at hf; omega⟩
    cases tl with
    | nil =>
      have h1 : arrItemsChars f [x] ++ ']' :: rest = f x ++ ']' :: rest := by
        simp [arrItemsChars]
      rw [h1, parseArrItems.eq_def]
      simp [hobj]
    | cons x2 tl2 =>
      have h1 : arrItemsChars f (x :: x2 :: tl2) ++ ']' :: rest
          = f x ++ ',' :: (arrItemsChars f (x2 :: tl2) ++ ']' :: rest) := by
        simp [arrItemsChars]
      have hf2 : (x2 :: tl2).length ≤ g := by simp at hf ⊢; omega
      rw [h1, parseArrItems.eq_def]
      simp [hobj, ih (by simp) rest g hf2]

theorem length_le_arrItems {α : Type} (f : α → List Char) (xs : List α) :
    xs.length ≤ (arrItemsChars f xs).length + 1 := by
  induction xs with
  | nil => simp [arrItemsChars]
  | cons x tl ih =>
    cases tl with
    | nil => simp [arrItemsChars]
    | cons x2 tl2 =>
      have h1 : arrItemsChars f (x :: x2 :: tl2)
          = f x ++ ',' :: arrItemsChars f (x2 :: tl2) := by
        simp [arrItemsChars]
      rw [h1]
      simp only [List.length_cons, List.length_append] at ih ⊢
      omega

theorem arrItemsChars_cons_ne {α : Type} (f : α → List Char)
    (hfne : ∀ x, f x ≠ []) (x : α) (tl : List α) :
    arrItemsChars f (x :: tl) ≠ [] := by
  cases tl with
  | nil => simpa [arrItemsChars] using hfne x
  | cons x2 tl2 =>
    simp only [arrItemsChars, ne_eq, List.append_eq_nil]
    intro h
    exact hfne x h.1

theorem parseArr_round {α : Type} (f : α → List Char)
    (pObj : List Char → Option (α × List Char))
    (hobj : ∀ x rest, pObj (f x ++ rest) = some (x, rest))
    (hfne : ∀ x, f x ≠ []) (xs : List α) :
    parseArr pObj (serializeArr f xs) = some xs := by
  cases xs with
  | nil => simp [parseArr, serializeArr, arrItemsChars]
  | cons x tl =>
    have hdata : (serializeArr f (x :: tl)).data
        = '[' :: (arrItemsChars f (x :: tl) ++ [']']) := rfl
    have hne2 : arrItemsChars f (x :: tl) ++ [']'] ≠ [']'] := by
      intro h
      have := congrArg List.length h
      simp at this
      exact arrItemsChars_cons_ne f hfne x tl this
    have hfuel : (x :: tl).length ≤ (arrItemsChars f (x :: tl)).length + 1 :=
      length_le_arrItems f (x :: tl)
    have hitems : parseArrItems pObj ((arrItemsChars f (x :: tl)).length + 1)
        (arrItemsChars f (x :: tl) ++ [']'])
        = some (x :: tl, []) := by
      have h : arrItemsChars f (x :: tl) ++ [']']
          = arrItemsChars f (x :: tl) ++ ']' :: [] := rfl
      rw [h]
      exact parseArrItems_round f pObj hobj (x :: tl) (by simp) [] _ hfuel
    simp [parseArr, hdata, hne2, hitems]

/-- The stringify image of a bare JSON string element (note tags). -/
def strLitChars (s : String) : List Char := '"' :: (escChars s.data ++ ['"'])

/-- Parses a bare JSON string element. -/
def parseStrLit (l : List Char) : Option (String × List Char) :=
  match l with
  | [] => none
  | c :: rest =>
    if c = '"' then
      match parseStrAux rest with
      | some (cs, r) => some (String.mk cs, r)
      | none => none
    else none

theorem parseStrLit_round (s : String) (rest : List Char) :
    parseStrLit (strLitChars s ++ rest) = some (s, rest) := by
  have h1 : strLitChars s ++ rest = '"' :: (escChars s.data ++ '"' :: rest) := by
    simp [strLitChars]
  rw [h1, parseStrLit]
  simp [parseStrAux_round]

theorem strLitChars_ne (s : String) : strLitChars s ≠ [] := by
  simp [strLitChars]

/-- The decimal digit characters for the JSON image of a number column
(EngagementFile.size). -/
def digitChar (d : Nat) : Char :=
  match d with
  | 0 => '0'
  | 1 => '1'
  | 2 => '2'
  | 3 => '3'
  | 4 => '4'
  | 5 => '5'
  | 6 => '6'
  | 7 => '7'
  | 8 => '8'
  | _ => '9'

/-- The decimal stringify image of a natural number. -/
def natChars (n : Nat) : List Char :=
  if n < 10 then [digitChar n]
  else natChars (n / 10) ++ [digitChar (n % 10)]
termination_by n
decreasing_by exact Nat.div_lt_self (by omega) (by omega)

def isDigitChar (c : Char) : Bool := '0' ≤ c && c ≤ '9'

/-- The maximal digit run at the head of the input. -/
def takeDigits : List Char → List Char × List Char
  | [] => ([], [])
  | c :: rest =>
    if isDigitChar c then
      ((c :: (takeDigits rest).1), (takeDigits rest).2)
    else ([], c :: rest)

def digitVal (c : Char) : Nat := c.toNat - 48

def digitsToNat (ds : List Char) : Nat := ds.foldl (fun a c => a * 10 + digitVal c) 0

/-- Parses a decimal number literal. -/
def parseNatLit (l : List Char) : Option (Nat × List Char) :=
  if (takeDigits l).1 = [] then none
  else some (digitsToNat (takeDigits l).1, (takeDigits l).2)

theorem digitChar_isDigit : ∀ d, d < 10 → isDigitChar (digitChar d) = true := by decide

theorem digitVal_digitChar : ∀ d, d < 10 → digitVal (digitChar d) = d := by decide

theorem natChars_ne (n : Nat) : natChars n ≠ [] := by
  rw [natChars.eq_def]
  split
  · simp
  · simp

theorem natChars_digits (n : Nat) : ∀ c ∈ natChars n, isDigitChar c = true := by
  induction n using Nat.strong_induction_on with
  | _ n ih =>
    rw [natChars.eq_def]
    split
    · next h =>
      intro c hc
      simp at hc
      subst hc
      exact digitChar_isDigit n h
    · next h =>
      intro c hc
      rcases List.mem_append.mp hc with h1 | h2
      · exact ih (n / 10) (Nat.div_lt_self (by omega) (by omega)) c h1
      · simp at h2
        subst h2
        exact digitChar_isDigit _ (Nat.mod_lt _ (by omega))

theorem takeDigits_append (ds rest : List Char)
    (hds : ∀ c ∈ ds, isDigitChar c = true)
    (hrest : ∀ c, rest.head? = some c → isDigitChar c = false) :
    takeDigits (ds ++ rest) = (ds, rest) := by
  induction ds with
  | nil =>
    cases rest with
    | nil => rfl
    | cons c r =>
      have hc := hrest c rfl
      simp [takeDigits, hc]
  | cons d ds2 ih =>
    have hd := hds d (by simp)
    have ih2 := ih (fun c hc => hds c (by simp [hc]))
    simp [takeDigits, hd, ih2]

theorem digitsToNat_natChars (n : Nat) : digitsToNat (natChars n) = n := by
  induction n using Nat.strong_induction_on with
  | _ n ih =>
    rw [natChars.eq_def]
    split
    · next h =>
      simp [digitsToNat, digitVal_digitChar n h]
    · next h =>
      have hdiv := ih (n / 10) (Nat.div_lt_self (by omega) (by omega))
      rw [digitsToNat, List.foldl_append]
      rw [digitsToNat] at hdiv
      simp only [List.foldl_cons, List.foldl_nil, hdiv,
        digitVal_digitChar _ (Nat.mod_lt _ (by omega))]
      omega

theorem parseNatLit_round (n : Nat) (rest : List Char)
    (hrest : ∀ c, rest.head? = some c → isDigitChar c = false) :
    parseNatLit (natChars n ++ rest) = some (n, rest) := by
  have ht := takeDigits_append (natChars n) rest (natChars_digits n) hrest
  rw [parseNatLit, ht]
  simp [natChars_ne n, digitsToNat_natChars n]

/-- Timeline entry of an Engagement (types.ts). -/
structure TimelineEntry where
  id : String
  date : String
  content : String
  type : String
deriving DecidableEq, Repr

/-- The stringify image of one timeline entry, keys in interface order. -/
def timelineEntryChars (e : TimelineEntry) : List Char :=
  "\x7b\"id\":\"".data ++ escChars e.id.data ++ ['"']
    ++ ",\"date\":\"".data ++ escChars e.date.data ++ ['"']
    ++ ",\"content\":\"".data ++ escChars e.content.data ++ ['"']
    ++ ",\"type\":\"".data ++ escChars e.type.data ++ ['"']
    ++ "\x7d".data

/-- Parses one timeline entry object. -/
def parseTimelineEntryObj (l : List Char) : Option (TimelineEntry × List Char) :=
  match expectChars "\x7b\"id\":\"".data l with
  | none => none
  | some l1 =>
    match parseStrAux l1 with
    | none => none
    | some (idChars, l2) =>
      match expectChars ",\"date\":\"".data l2 with
      | none => none
      | some l3 =>
        match parseStrAux l3 with
        | none => none
        | some (dChars, l4) =>
          match expectChars ",\"content\":\"".data l4 with
          | none => none
          | some l5 =>
            match parseStrAux l5 with
            | none => none
            | some (cChars, l6) =>
              match expectChars ",\"type\":\"".data l6 with
              | none => none
              | some l7 =>
                match parseStrAux l7 with
                | none => none
                | some (tChars, l8) =>
                  match expectChars "\x7d".data l8 with
                  | none => none
                  | some l9 =>
                    some ({ id := String.mk idChars, date := String.mk dChars,
                            content := String.mk cChars, type := String.mk tChars }, l9)

theorem parseTimelineEntryObj_round (e : TimelineEntry) (rest : List Char) :
    parseTimelineEntryObj (timelineEntryChars e ++ rest) = some (e, rest) := by
  have h1 : timelineEntryChars e ++ rest
      = "\x7b\"id\":\"".data ++ (escChars e.id.data ++ '"' ::
        (",\"date\":\"".data ++ (escChars e.date.data ++ '"' ::
          (",\"content\":\"".data ++ (escChars e.content.data ++ '"' ::
            (",\"type\":\"".data ++ (escChars e.type.data ++ '"' ::
              ("\x7d".data ++ rest)))))))) := by
    simp [timelineEntryChars]
  rw [h1]
  simp only [parseTimelineEntryObj, expectChars_append, parseStrAux_round]

theorem timelineEntryChars_ne (e : TimelineEntry) : timelineEntryChars e ≠ [] := by
  simp [timelineEntryChars]

/-- Chronological entry of an Idea (types.ts). -/
structure IdeaEntry where
  id : String
  content : String
  timestamp : String
deriving DecidableEq, Repr

/-- The stringify image of one idea entry, keys in interface order. -/
def ideaEntryChars (e : IdeaEntry) : List Char :=
  "\x7b\"id\":\"".data ++ escChars e.id.data ++ ['"']
    ++ ",\"content\":\"".data ++ escChars e.content.data ++ ['"']
    ++ ",\"timestamp\":\"".data ++ escChars e.timestamp.data ++ ['"']
    ++ "\x7d".data

/-- Parses one idea entry object. -/
def parseIdeaEntryObj (l : List Char) : Option (IdeaEntry × List Char) :=
  match expectChars "\x7b\"id\":\"".data l with
  | none => none
  | some l1 =>
    match parseStrAux l1 with
    | none => none
    | some (idChars, l2) =>
      match expectChars ",\"content\":\"".data l2 with
      | none => none
      | some l3 =>
        match parseStrAux l3 with
        | none => none
        | some (cChars, l4) =>
          match expectChars ",\"timestamp\":\"".data l4 with
          | none => none
          | some l5 =>
            match parseStrAux l5 with
            | none => none
            | some (tsChars, l6) =>
              match expectChars "\x7d".data l6 with
              | none => none
              | some l7 =>
                some ({ id := String.mk idChars, content := String.mk cChars,
                        timestamp := String.mk tsChars }, l7)

theorem parseIdeaEntryObj_round (e : IdeaEntry) (rest : List Char) :
    parseIdeaEntryObj (ideaEntryChars e ++ rest) = some (e, rest) := by
  have h1 : ideaEntryChars e ++ rest
      = "\x7b\"id\":\"".data ++ (escChars e.id.data ++ '"' ::
        (",\"content\":\"".data ++ (escChars e.content.data ++ '"' ::
          (",\"timestamp\":\"".data ++ (escChars e.timestamp.data ++ '"' ::
            ("\x7d".data ++ rest)))))) := by
    simp [ideaEntryChars]
  rw [h1]
  simp only [parseIdeaEntryObj, expectChars_append, parseStrAux_round]

theorem ideaEntryChars_ne (e : IdeaEntry) : ideaEntryChars e ≠ [] := by
  simp [ideaEntryChars]

/-- Uploaded file of an Engagement (types.ts); size is a JS number. -/
structure EngagementFile where
  id : String
  name : String
  type : String
  size : Nat
  data : String
  uploadDate : String
deriving DecidableEq, Repr

/-- The stringify image of one engagement file, keys in interface order;
the size field is a bare number. -/
def engagementFileChars (f : EngagementFile) : List Char :=
  "\x7b\"id\":\"".data ++ escChars f.id.data ++ ['"']
    ++ ",\"name\":\"".data ++ escChars f.name.data ++ ['"']
    ++ ",\"type\":\"".data ++ escChars f.type.data ++ ['"']
    ++ ",\"size\":".data ++ natChars f.size
    ++ ",\"data\":\"".data ++ escChars f.data.data ++ ['"']
    ++ ",\"uploadDate\":\"".data ++ escChars f.uploadDate.data ++ ['"']
    ++ "\x7d".data

/-- Parses one engagement file object. -/
def parseEngagementFileObj (l : List Char) : Option (EngagementFile × List Char) :=
  match expectChars "\x7b\"id\":\"".data l with
  | none => none
  | some l1 =>
    match parseStrAux l1 with
    | none => none
    | some (idChars, l2) =>
      match expectChars ",\"name\":\"".data l2 with
      | none => none
      | some l3 =>
        match parseStrAux l3 with
        | none => none
        | some (nChars, l4) =>
          match expectChars ",\"type\":\"".data l4 with
          | none => none
          | some l5 =>
            match parseStrAux l5 with
            | none => none
            | some (tChars, l6) =>
              match expectChars ",\"size\":".data l6 with
              | none => none
              | some l7 =>
                match parseNatLit l7 with
                | none => none
                | some (sz, l8) =>
                  match expectChars ",\"data\":\"".data l8 with
                  | none => none
                  | some l9 =>
                    match parseStrAux l9 with
                    | none => none
                    | some (dChars, l10) =>
                      match expectChars ",\"uploadDate\":\"".data l10 with
                      | none => none
                      | some l11 =>
                        match parseStrAux l11 with
                        | none => none
                        | some (uChars, l12) =>
                          match expectChars "\x7d".data l12 with
                          | none => none
                          | some l13 =>
                            some ({ id := String.mk idChars, name := String.mk nChars,
                                    type := String.mk tChars, size := sz,
                                    data := String.mk dChars,
                                    uploadDate := String.mk uChars }, l13)

theorem parseEngagementFileObj_round (f : EngagementFile) (rest : List Char) :
    parseEngagementFileObj (engagementFileChars f ++ rest) = some (f, rest) := by
  have h1 : engagementFileChars f ++ rest
      = "\x7b\"id\":\"".data ++ (escChars f.id.data ++ '"' ::
        (",\"name\":\"".data ++ (escChars f.name.data ++ '"' ::
          (",\"type\":\"".data ++ (escChars f.type.data ++ '"' ::
            (",\"size\":".data ++ (natChars f.size
              ++ (",\"data\":\"".data ++ (escChars f.data.data ++ '"' ::
                (",\"uploadDate\":\"".data ++ (escChars f.uploadDate.data ++ '"' ::
                  ("\x7d".data ++ rest)))))))))))) := by
    simp [engagementFileChars]
  have hnat : parseNatLit (natChars f.size
      ++ (",\"data\":\"".data ++ (escChars f.data.data ++ '"' ::
        (",\"uploadDate\":\"".data ++ (escChars f.uploadDate.data ++ '"' ::
          ("\x7d".data ++ rest))))))
      = some (f.size, ",\"data\":\"".data ++ (escChars f.data.data ++ '"' ::
        (",\"uploadDate\":\"".data ++ (escChars f.uploadDate.data ++ '"' ::
          ("\x7d".data ++ rest))))) := by
    apply parseNatLit_round
    intro c hc
    have h2 : (",\"data\":\"".data ++ (escChars f.data.data ++ '"' ::
        (",\"uploadDate\":\"".data ++ (escChars f.uploadDate.data ++ '"' ::
          ("\x7d".data ++ rest))))).head? = some ',' := rfl
    rw [h2] at hc
    injection hc with hc2
    subst hc2
    decide
  rw [h1]
  simp only [parseEngagementFileObj, expectChars_append, parseStrAux_round, hnat]

theorem engagementFileChars_ne (f : EngagementFile) : engagementFileChars f ≠ [] := by
  simp [engagementFileChars]

/-! ### Note, engagement and idea endpoints (server.js) -/

/-- JS a || b for strings where a NULL column reads as the empty string. -/
def jsOrStr (a d : String) : String := if a = "" then d else a

theorem serializeArr_ne_empty {α : Type} (f : α → List Char) (xs : List α) :
    serializeArr f xs ≠ "" := by
  intro h
  have := congrArg String.data h
  simp [serializeArr] at this

/-- Locating the freshly written row among the formatted user rows, generic
in the row and wire types. -/
theorem optList_found_gen {ρ ω : Type} (format : ρ → Option ω) (idR : ρ → String)
    (idO : ω → String)
    (hid : ∀ r x, format r = some x → idO x = idR r)
    (rows : List ρ) (row : ρ) (out : ω) (tid : String)
    (hrows : ∀ r ∈ rows, (format r).isSome)
    (hne : ∀ r ∈ rows, idR r ≠ tid)
    (hrow : format row = some out)
    (houtid : idO out = tid) :
    ∃ l, optList ((rows ++ [row]).map format) = some l ∧
      l.find? (fun x => idO x == tid) = some out := by
  induction rows with
  | nil =>
    refine ⟨[out], ?_, ?_⟩
    · simp [optList, hrow]
    · simp [List.find?, houtid]
  | cons r rows ih =>
    obtain ⟨x, hx⟩ := Option.isSome_iff_exists.mp (hrows r (by simp))
    obtain ⟨l, hl, hfind⟩ := ih (fun r2 h2 => hrows r2 (by simp [h2]))
      (fun r2 h2 => hne r2 (by simp [h2]))
    refine ⟨x :: l, ?_, ?_⟩
    · simp only [List.cons_append, List.map_cons, optList, hx, hl]
    · have hxid : ¬ idO x = tid := by
        rw [hid r x hx]
        exact hne r (by simp)
      rw [List.find?_cons_of_neg _ (by simp [hxid]), hfind]

/-- Note as submitted by the client (types.ts). -/
structure Note where
  id : String
  title : String
  content : String
  tags : List String
  createdAt : String
  updatedAt : String
deriving DecidableEq, Repr

/-- The notes row written by POST /api/notes (server.js); tags are
stringified. -/
def noteRowOf (u : String) (n : Note) : NoteRow :=
  { id := n.id, userId := some u, title := n.title, content := n.content,
    tags := serializeArr strLitChars n.tags, createdAt := n.createdAt,
    updatedAt := some n.updatedAt }

/-- POST /api/notes (server.js): INSERT OR REPLACE keyed on id. -/
def postNote (u : String) (n : Note) (s : Store) : Store :=
  { s with notes := (s.notes.filter fun r => r.id != n.id) ++ [noteRowOf u n] }

/-- Wire shape of a note returned by GET /api/notes. -/
structure NoteOut where
  id : String
  userId : Option String
  title : String
  content : String
  tags : List String
  createdAt : String
  updatedAt : Option String
deriving DecidableEq, Repr

/-- Read shaping of one notes row (server.js GET /api/notes): the tags text
through JSON.parse, whose throw aborts the request (none); an empty column
falls back to the empty array literal. -/
def formatNoteRow (r : NoteRow) : Option NoteOut :=
  match parseArr parseStrLit (jsOrStr r.tags "[]") with
  | none => none
  | some tags =>
    some { id := r.id, userId := r.userId, title := r.title, content := r.content,
           tags := tags, createdAt := r.createdAt, updatedAt := r.updatedAt }

/-- GET /api/notes (server.js). -/
def getNotes (u : String) (s : Store) : Option (List NoteOut) :=
  optList ((s.notes.filter fun r => r.userId == some u).map formatNoteRow)

/-- The wire value GET /api/notes yields for a note saved through POST
/api/notes. -/
def noteOutOf (u : String) (n : Note) : NoteOut :=
  { id := n.id, userId := some u, title := n.title, content := n.content,
    tags := n.tags, createdAt := n.createdAt, updatedAt := some n.updatedAt }

theorem formatNoteRow_noteRowOf (u : String) (n : Note) :
    formatNoteRow (noteRowOf u n) = some (noteOutOf u n) := by
  have hscrut : parseArr parseStrLit (jsOrStr (noteRowOf u n).tags "[]") = some n.tags := by
    have h1 : (noteRowOf u n).tags = serializeArr strLitChars n.tags := rfl
    rw [h1]
    have hj : jsOrStr (serializeArr strLitChars n.tags) "[]"
        = serializeArr strLitChars n.tags := by
      simp [jsOrStr, serializeArr_ne_empty strLitChars n.tags]
    rw [hj]
    exact parseArr_round strLitChars parseStrLit (fun x rest => parseStrLit_round x rest)
      strLitChars_ne n.tags
  rw [formatNoteRow, hscrut]
  rfl

theorem getNotes_post_found (u : String) (n : Note) (s : Store)
    (hwf : ∀ r ∈ s.notes, (formatNoteRow r).isSome) :
    (getNotes u (postNote u n s)).map (fun l => l.find? fun x => x.id == n.id)
      = some (some (noteOutOf u n)) := by
  have hproj : (postNote u n s).notes
      = (s.notes.filter fun r => r.id != n.id) ++ [noteRowOf u n] := rfl
  have hfilter : ((postNote u n s).notes.filter fun r => r.userId == some u)
      = ((s.notes.filter fun r => r.id != n.id).filter fun r => r.userId == some u)
        ++ [noteRowOf u n] := by
    rw [hproj, List.filter_append]
    simp [noteRowOf]
  obtain ⟨l, hl, hfind⟩ := optList_found_gen formatNoteRow (fun r => r.id) (fun x => x.id)
    (fun r x h => by
      rw [formatNoteRow] at h
      cases hp : parseArr parseStrLit (jsOrStr r.tags "[]") with
      | none => rw [hp] at h; simp at h
      | some tags =>
        rw [hp] at h
        injection h with h2
        rw [← h2])
    ((s.notes.filter fun r => r.id != n.id).filter fun r => r.userId == some u)
    (noteRowOf u n) (noteOutOf u n) n.id
    (fun r hr => hwf r (List.mem_of_mem_filter (List.mem_of_mem_filter hr)))
    (fun r hr => by
      have := (List.mem_filter.mp (List.mem_filter.mp hr).1).2
      simpa using this)
    (formatNoteRow_noteRowOf u n) rfl
  rw [getNotes, hfilter, hl]
  simp [hfind]

/-- Engagement as submitted by the client (types.ts). -/
structure Engagement where
  id : String
  engagementNumber : String
  orgId : String
  accountName : String
  name : String
  status : String
  timeline : List TimelineEntry
  files : List EngagementFile
  aiSummary : Option String
  lastSummaryDate : Option String
deriving DecidableEq, Repr

/-- The engagements row written by POST /api/engagements (server.js);
timeline and files are stringified. -/
def engagementRowOf (u : String) (e : Engagement) : EngagementRow :=
  { id := e.id, userId := some u, engagementNumber := e.engagementNumber,
    orgId := e.orgId, accountName := e.accountName, name := e.name, status := e.status,
    timeline := serializeArr timelineEntryChars e.timeline,
    files := serializeArr engagementFileChars e.files,
    aiSummary := e.aiSummary, lastSummaryDate := e.lastSummaryDate }

/-- POST /api/engagements (server.js): INSERT OR REPLACE keyed on id. -/
def postEngagement (u : String) (e : Engagement) (s : Store) : Store :=
  { s with engagements :=
      (s.engagements.filter fun r => r.id != e.id) ++ [engagementRowOf u e] }

/-- Wire shape of an engagement returned by GET /api/engagements. -/
structure EngagementOut where
  id : String
  userId : Option String
  engagementNumber : String
  orgId : String
  accountName : String
  name : String
  status : String
  timeline : List TimelineEntry
  files : List EngagementFile
  aiSummary : Option String
  lastSummaryDate : Option String
deriving DecidableEq, Repr

/-- Read shaping of one engagements row (server.js GET /api/engagements):
timeline and files through JSON.parse, whose throw aborts the request;
empty columns fall back to the empty array literal. -/
def formatEngagementRow (r : EngagementRow) : Option EngagementOut :=
  match parseArr parseTimelineEntryObj (jsOrStr r.timeline "[]") with
  | none => none
  | some tl =>
    match parseArr parseEngagementFileObj (jsOrStr r.files "[]") with
    | none => none
    | some fs =>
      some { id := r.id, userId := r.userId, engagementNumber := r.engagementNumber,
             orgId := r.orgId, accountName := r.accountName, name := r.name,
             status := r.status, timeline := tl, files := fs,
             aiSummary := r.aiSummary, lastSummaryDate := r.lastSummaryDate }

/-- GET /api/engagements (server.js). -/
def getEngagements (u : String) (s : Store) : Option (List EngagementOut) :=
  optList ((s.engagements.filter fun r => r.userId == some u).map formatEngagementRow)

/-- The wire value GET /api/engagements yields for an engagement saved
through POST /api/engagements. -/
def engagementOutOf (u : String) (e : Engagement) : EngagementOut :=
  { id := e.id, userId := some u, engagementNumber := e.engagementNumber,
    orgId := e.orgId, accountName := e.accountName, name := e.name, status := e.status,
    timeline := e.timeline, files := e.files, aiSummary := e.aiSummary,
    lastSummaryDate := e.lastSummaryDate }

theorem formatEngagementRow_rowOf (u : String) (e : Engagement) :
    formatEngagementRow (engagementRowOf u e) = some (engagementOutOf u e) := by
  have hscrut1 : parseArr parseTimelineEntryObj (jsOrStr (engagementRowOf u e).timeline "[]")
      = some e.timeline := by
    have h1 : (engagementRowOf u e).timeline = serializeArr timelineEntryChars e.timeline := rfl
    rw [h1]
    have hj : jsOrStr (serializeArr timelineEntryChars e.timeline) "[]"
        = serializeArr timelineEntryChars e.timeline := by
      simp [jsOrStr, serializeArr_ne_empty timelineEntryChars e.timeline]
    rw [hj]
    exact parseArr_round timelineEntryChars parseTimelineEntryObj
      (fun x rest => parseTimelineEntryObj_round x rest) timelineEntryChars_ne e.timeline
  have hscrut2 : parseArr parseEngagementFileObj (jsOrStr (engagementRowOf u e).files "[]")
      = some e.files := by
    have h1 : (engagementRowOf u e).files = serializeArr engagementFileChars e.files := rfl
    rw [h1]
    have hj : jsOrStr (serializeArr engagementFileChars e.files) "[]"
        = serializeArr engagementFileChars e.files := by
      simp [jsOrStr, serializeArr_ne_empty engagementFileChars e.files]
    rw [hj]
    exact parseArr_round engagementFileChars parseEngagementFileObj
      (fun x rest => parseEngagementFileObj_round x rest) engagementFileChars_ne e.files
  rw [formatEngagementRow, hscrut1, hscrut2]
  rfl

theorem getEngagements_post_found (u : String) (e : Engagement) (s : Store)
    (hwf : ∀ r ∈ s.engagements, (formatEngagementRow r).isSome) :
    (getEngagements u (postEngagement u e s)).map (fun l => l.find? fun x => x.id == e.id)
      = some (some (engagementOutOf u e)) := by
  have hproj : (postEngagement u e s).engagements
      = (s.engagements.filter fun r => r.id != e.id) ++ [engagementRowOf u e] := rfl
  have hfilter : ((postEngagement u e s).engagements.filter fun r => r.userId == some u)
      = ((s.engagements.filter fun r => r.id != e.id).filter fun r => r.userId == some u)
        ++ [engagementRowOf u e] := by
    rw [hproj, List.filter_append]
    simp [engagementRowOf]
  obtain ⟨l, hl, hfind⟩ := optList_found_gen formatEngagementRow (fun r => r.id)
    (fun x => x.id)
    (fun r x h => by
      rw [formatEngagementRow] at h
      cases hp : parseArr parseTimelineEntryObj (jsOrStr r.timeline "[]") with
      | none => rw [hp] at h; simp at h
      | some tl =>
        rw [hp] at h
        cases hq : parseArr parseEngagementFileObj (jsOrStr r.files "[]") with
        | none => rw [hq] at h; simp at h
        | some fs =>
          rw [hq] at h
          injection h with h2
          rw [← h2])
    ((s.engagements.filter fun r => r.id != e.id).filter fun r => r.userId == some u)
    (engagementRowOf u e) (engagementOutOf u e) e.id
    (fun r hr => hwf r (List.mem_of_mem_filter (List.mem_of_mem_filter hr)))
    (fun r hr => by
      have := (List.mem_filter.mp (List.mem_filter.mp hr).1).2
      simpa using this)
    (formatEngagementRow_rowOf u e) rfl
  rw [getEngagements, hfilter, hl]
  simp [hfind]

/-- Idea as submitted by the client (types.ts). -/
structure Idea where
  id : String
  title : String
  description : String
  entries : List IdeaEntry
  category : String
  priority : String
  status : String
  createdAt : String
  updatedAt : Option String
  aiSummary : Option String
  lastSummaryDate : Option String
  engagementId : Option String
  engagementName : Option String
  convertedToProjectId : Option String
deriving DecidableEq, Repr

/-- The ideas row written by POST /api/ideas (server.js): entries are
stringified and the legacy description column mirrors the first entry's
content when entries are present, the submitted description otherwise. -/
def ideaRowOf (u : String) (i : Idea) : IdeaRow :=
  { id := i.id, userId := some u, title := i.title,
    description := match i.entries with
      | e :: _ => e.content
      | [] => i.description,
    entries := serializeArr ideaEntryChars i.entries,
    category := i.category, priority := i.priority, status := i.status,
    createdAt := i.createdAt, updatedAt := jsOrNull i.updatedAt,
    aiSummary := jsOrNull i.aiSummary, lastSummaryDate := jsOrNull i.lastSummaryDate,
    engagementId := jsOrNull i.engagementId, engagementName := jsOrNull i.engagementName,
    convertedToProjectId := jsOrNull i.convertedToProjectId }

/-- POST /api/ideas (server.js): INSERT OR REPLACE keyed on id. -/
def postIdea (u : String) (i : Idea) (s : Store) : Store :=
  { s with ideas := (s.ideas.filter fun r => r.id != i.id) ++ [ideaRowOf u i] }

/-- Wire shape of an idea returned by GET /api/ideas: the row spread with
the entries column replaced by the parsed (or migrated) entries array. -/
structure IdeaOut where
  id : String
  userId : Option String
  title : String
  description : String
  entries : List IdeaEntry
  category : String
  priority : String
  status : String
  createdAt : String
  updatedAt : Option String
  aiSummary : Option String
  lastSummaryDate : Option String
  engagementId : Option String
  engagementName : Option String
  convertedToProjectId : Option String
deriving DecidableEq, Repr

/-- JS s.trim() truthiness for the ASCII strings involved: the string has a
character that is not whitespace. -/
def hasNonWs (s : String) : Bool :=
  s.data.any fun c => !(c == ' ' || c == '\t' || c == '\n' || c == '\r')

/-- The entry fabricated by GET /api/ideas for a legacy idea whose entries
array is empty but whose description is non-blank (server.js). -/
def legacyEntry (r : IdeaRow) (now : String) : IdeaEntry :=
  { id := "legacy-" ++ r.id, content := r.description,
    timestamp := jsOrStr r.createdAt now }

/-- Read shaping of one ideas row (server.js GET /api/ideas): the entries
text goes through JSON.parse inside try/catch, so a parse failure yields
the empty array rather than aborting; then, when the parsed array is empty
and the legacy description is truthy with a truthy trim, a single
fabricated legacy entry replaces it. -/
def formatIdeaRow (now : String) (r : IdeaRow) : IdeaOut :=
  let parsed := (parseArr parseIdeaEntryObj (jsOrStr r.entries "[]")).getD []
  let entries := if parsed.isEmpty && (r.description != "" && hasNonWs r.description)
    then [legacyEntry r now] else parsed
  { id := r.id, userId := r.userId, title := r.title, description := r.description,
    entries := entries, category := r.category, priority := r.priority,
    status := r.status, createdAt := r.createdAt, updatedAt := r.updatedAt,
    aiSummary := r.aiSummary, lastSummaryDate := r.lastSummaryDate,
    engagementId := r.engagementId, engagementName := r.engagementName,
    convertedToProjectId := r.convertedToProjectId }

/-- GET /api/ideas (server.js); the current timestamp is the fallback for a
fabricated entry of a row without createdAt. -/
def getIdeas (u now : String) (s : Store) : List IdeaOut :=
  (s.ideas.filter fun r => r.userId == some u).map (formatIdeaRow now)

/-- The wire value GET /api/ideas yields for an idea with nonempty entries
saved through POST /api/ideas. -/
def ideaOutOf (u : String) (i : Idea) : IdeaOut :=
  { id := i.id, userId := some u, title := i.title,
    description := match i.entries with
      | e :: _ => e.content
      | [] => i.description,
    entries := i.entries, category := i.category, priority := i.priority,
    status := i.status, createdAt := i.createdAt, updatedAt := jsOrNull i.updatedAt,
    aiSummary := jsOrNull i.aiSummary, lastSummaryDate := jsOrNull i.lastSummaryDate,
    engagementId := jsOrNull i.engagementId, engagementName := jsOrNull i.engagementName,
    convertedToProjectId := jsOrNull i.convertedToProjectId }

theorem formatIdeaRow_rowOf (u now : String) (i : Idea) (hne : i.entries ≠ []) :
    formatIdeaRow now (ideaRowOf u i) = ideaOutOf u i := by
  have hscrut : parseArr parseIdeaEntryObj (jsOrStr (ideaRowOf u i).entries "[]")
      = some i.entries := by
    have h1 : (ideaRowOf u i).entries = serializeArr ideaEntryChars i.entries := rfl
    rw [h1]
    have hj : jsOrStr (serializeArr ideaEntryChars i.entries) "[]"
        = serializeArr ideaEntryChars i.entries := by
      simp [jsOrStr, serializeArr_ne_empty ideaEntryChars i.entries]
    rw [hj]
    exact parseArr_round ideaEntryChars parseIdeaEntryObj
      (fun x rest => parseIdeaEntryObj_round x rest) ideaEntryChars_ne i.entries
  have hemp : i.entries.isEmpty = false := by
    cases hi : i.entries with
    | nil => exact absurd hi hne
    | cons a l => simp
  rw [formatIdeaRow]
  simp only [hscrut, Option.getD_some, hemp, Bool.false_and, if_false]
  rfl

theorem getIdeas_post_found (u now : String) (i : Idea) (s : Store)
    (hne : i.entries ≠ []) :
    (getIdeas u now (postIdea u i s)).find? (fun x => x.id == i.id)
      = some (ideaOutOf u i) := by
  have hproj : (postIdea u i s).ideas
      = (s.ideas.filter fun r => r.id != i.id) ++ [ideaRowOf u i] := rfl
  rw [getIdeas, hproj, List.filter_append,
    show ([ideaRowOf u i].filter fun r => r.userId == some u) = [ideaRowOf u i] by
      simp [ideaRowOf],
    List.map_append]
  rw [find?_append_of_none]
  · simp only [List.map_cons, List.map_nil]
    rw [List.find?_cons_of_pos _ (by simp [formatIdeaRow, ideaRowOf]),
      formatIdeaRow_rowOf u now i hne]
  · intro x hx
    rcases List.mem_map.mp hx with ⟨r, hr, rfl⟩
    have hne2 := (List.mem_filter.mp (List.mem_filter.mp hr).1).2
    simp only [bne_iff_ne, ne_eq] at hne2
    simp [formatIdeaRow, hne2]

def wIdeaC7 : Idea :=
  { id := "idea-7", title := "Automated Status Tool", description := "Script for Jira",
    entries := [], category := "Process", priority := "High", status := "New",
    createdAt := "c0", updatedAt := none, aiSummary := none, lastSummaryDate := none,
    engagementId := none, engagementName := none, convertedToProjectId := none }

def wLegacyEntry : IdeaEntry :=
  { id := "legacy-idea-7", content := "Script for Jira", timestamp := "c0" }

/-- Claim C7 counterexample: the Idea entity has a nested blob field
(entries) whose round trip fails. An idea saved with entries = [] and a
non-blank legacy description reads back from GET /api/ideas with one
fabricated legacy entry instead of the submitted empty array (server.js,
legacy description migration in the ideas list handler), so the claim as
stated — identical structured array for each nested blob field of every
entity — is false at this input. -/
theorem C7_counterexample_idea_entries :
    wIdeaC7.entries = [] ∧
    ((getIdeas "u-1" "2024-05-05T12:00:00.000Z" (postIdea "u-1" wIdeaC7 wStore0)).find?
        (fun x => x.id == wIdeaC7.id)).map (fun x => x.entries)
      = some [wLegacyEntry] ∧
    ([wLegacyEntry] : List IdeaEntry) ≠ wIdeaC7.entries :=
  ⟨rfl, by decide, by decide⟩

/-- Claim C7 as amended: saving an entity with nested blob fields or
boolean flags through its POST endpoint and re-reading it through the
matching GET reproduces the identical structured array for each nested
blob field and yields booleans for each 0/1-stored flag — a Task
round-trips subtasks, isCompleted and isPriority; a CalendarEvent momSent;
a Highlight needsFollowUp; a Note its tags array; an Engagement its
timeline and files arrays — with the one exception the counterexample
forces: an Idea's entries array round-trips only when the submitted
entries are nonempty, since GET /api/ideas substitutes a fabricated legacy
entry for an empty entries array whenever the stored description is
non-blank. The well-formedness hypotheses say every pre-existing blob in
the affected store parses, since a JSON.parse throw on any row aborts that
whole list request. -/
theorem C7_blob_and_flag_roundtrip (u now : String) (t : Task) (e : CalendarEvent)
    (hg : Highlight) (n : Note) (eng : Engagement) (i : Idea)
    (sT sE sH sN sG sI : Store)
    (hwfT : ∀ r ∈ sT.tasks, (formatTaskRow r).isSome)
    (hwfN : ∀ r ∈ sN.notes, (formatNoteRow r).isSome)
    (hwfG : ∀ r ∈ sG.engagements, (formatEngagementRow r).isSome)
    (hne : i.entries ≠ []) :
    ((getTasks u (postTask u t sT)).map fun l => l.find? fun x => x.id == t.id)
      = some (some (taskOutOf u t)) ∧
    (taskOutOf u t).subtasks = t.subtasks ∧
    (taskOutOf u t).isCompleted = t.isCompleted ∧
    (taskOutOf u t).isPriority = t.isPriority ∧
    (getCalendar u (postCalendar u e sE)).find? (fun x => x.id == e.id)
      = some (calendarOutOf u e) ∧
    (calendarOutOf u e).momSent = e.momSent ∧
    (getHighlights u (postHighlight u hg sH)).find? (fun x => x.id == hg.id)
      = some (highlightOutOf u hg) ∧
    (highlightOutOf u hg).needsFollowUp = hg.needsFollowUp ∧
    ((getNotes u (postNote u n sN)).map fun l => l.find? fun x => x.id == n.id)
      = some (some (noteOutOf u n)) ∧
    (noteOutOf u n).tags = n.tags ∧
    ((getEngagements u (postEngagement u eng sG)).map
        fun l => l.find? fun x => x.id == eng.id)
      = some (some (engagementOutOf u eng)) ∧
    (engagementOutOf u eng).timeline = eng.timeline ∧
    (engagementOutOf u eng).files = eng.files ∧
    (getIdeas u now (postIdea u i sI)).find? (fun x => x.id == i.id)
      = some (ideaOutOf u i) ∧
    (ideaOutOf u i).entries = i.entries :=
  ⟨getTasks_post_found u t sT hwfT, rfl, rfl, rfl, getCalendar_post_found u e sE, rfl,
   getHighlights_post_found u hg sH, rfl, getNotes_post_found u n sN hwfN, rfl,
   getEngagements_post_found u eng sG hwfG, rfl, rfl,
   getIdeas_post_found u now i sI hne, rfl⟩

def wNote7 : Note :=
  { id := "note-7", title := "Planning", content := "body text",
    tags := ["work", "q3 \"draft\" \\ final"], createdAt := "c0", updatedAt := "c1" }

def wTimeline7 : TimelineEntry :=
  { id := "t-1", date := "2024-01-01T14:30:00.000Z",
    content := "Presented \"Phase 1\" findings", type := "meeting" }

def wFile7 : EngagementFile :=
  { id := "f-1", name := "notes.pdf", type := "application/pdf", size := 20481,
    data := "data:application/pdf;base64,AAAA", uploadDate := "2024-01-02" }

def wEngagement7 : Engagement :=
  { id := "e-7", engagementNumber := "ENG-2024-001", orgId := "ORG-TFS",
    accountName := "TechFlow Systems", name := "AI Implementation Strategy",
    status := "Active", timeline := [wTimeline7], files := [wFile7],
    aiSummary := none, lastSummaryDate := none }

def wIdeaEntry7 : IdeaEntry :=
  { id := "ie-1", content := "Script for Jira", timestamp := "2024-01-01" }

def wIdea7 : Idea :=
  { id := "idea-8", title := "Automated Status Tool", description := "old mirror",
    entries := [wIdeaEntry7], category := "Process", priority := "High",
    status := "New", createdAt := "c0", updatedAt := none, aiSummary := none,
    lastSummaryDate := none, engagementId := none, engagementName := none,
    convertedToProjectId := none }

theorem C7_blob_and_flag_roundtrip_witness :
    ((getTasks "u-1" (postTask "u-1" wTask7 wStore0)).map
        fun l => l.find? fun x => x.id == wTask7.id)
      = some (some (taskOutOf "u-1" wTask7)) ∧
    (getCalendar "u-1" (postCalendar "u-1" wEvent7 wStore0)).find?
        (fun x => x.id == wEvent7.id)
      = some (calendarOutOf "u-1" wEvent7) ∧
    (getHighlights "u-1" (postHighlight "u-1" wHighlight7 wStore0)).find?
        (fun x => x.id == wHighlight7.id)
      = some (highlightOutOf "u-1" wHighlight7) ∧
    ((getNotes "u-1" (postNote "u-1" wNote7 wStore0)).map
        fun l => l.find? fun x => x.id == wNote7.id)
      = some (some (noteOutOf "u-1" wNote7)) ∧
    ((getEngagements "u-1" (postEngagement "u-1" wEngagement7 wStore0)).map
        fun l => l.find? fun x => x.id == wEngagement7.id)
      = some (some (engagementOutOf "u-1" wEngagement7)) ∧
    (getIdeas "u-1" "2024-05-05T12:00:00.000Z"
        (postIdea "u-1" wIdea7 wStore0)).find? (fun x => x.id == wIdea7.id)
      = some (ideaOutOf "u-1" wIdea7) :=
  have h := C7_blob_and_flag_roundtrip "u-1" "2024-05-05T12:00:00.000Z" wTask7 wEvent7
    wHighlight7 wNote7 wEngagement7 wIdea7 wStore0 wStore0 wStore0 wStore0 wStore0
    wStore0 (by decide) (by decide) (by decide) (by decide)
  ⟨h.1, h.2.2.2.2.1, h.2.2.2.2.2.2.1, h.2.2.2.2.2.2.2.2.1, h.2.2.2.2.2.2.2.2.2.2.1,
   h.2.2.2.2.2.2.2.2.2.2.2.2.2.1⟩
